import Mathlib

/-!
Verification development for the level-editor tooling layer of the
rpg_tactical_fantasy_game repository.

The Python sources are shallowly embedded:

* `apps/level_editor/tmx_roundtrip.py`   : `set_property`, the TMX round trip
* `apps/level_editor/tileset_loader.py`  : TSX parsing, tile slicing, the cache
* `apps/level_editor/metadata.py`        : editor metadata overlay
* `apps/level_editor/palette_model.py`   : pagination / filtering model
* `src/services/load_from_json_manager.py` : class-data JSON normalization

Python dictionaries that are only read pointwise are embedded as functions
`String → Option String` (resp. with other key types); dictionaries whose
entry order is observable are embedded as association lists with the exact
insert-or-replace semantics of CPython dicts.  Machine-level effects (file
system, XML parsing of raw bytes, pygame image loading) are supplied by an
explicit environment record, and Python exceptions are an explicit
`Except PyError` result.  pygame surfaces are embedded symbolically: a
surface value records the operation (base image load, sub-rectangle blit,
smooth scale) that produced it.
-/

/-- The Python exceptions that the embedded code can raise. -/
inductive PyError where
  /-- `TilesetLoadError(msg)`, the dedicated load-error class of
  `tileset_loader.py`. -/
  | tilesetLoadError (msg : String)
  /-- `FileNotFoundError` raised by `open`/`ET.parse` on a missing path. -/
  | fileNotFoundError (path : String)
  /-- `ValueError` raised by `int(...)` on a non-numeric string. -/
  | valueError (msg : String)
  /-- `KeyError` raised by `d[k]` on a missing key. -/
  | keyError (key : String)
  /-- `ZeroDivisionError` raised by `//` with zero divisor. -/
  | zeroDivisionError
  /-- `AttributeError`, e.g. calling `.setdefault` on a non-dict. -/
  | attributeError (msg : String)
  /-- `TypeError`, e.g. iterating a non-iterable. -/
  | typeError (msg : String)
deriving DecidableEq

/-- A pygame surface, embedded symbolically: the value records how the
surface was produced. `base` is `pygame.image.load(path)` (with the pixel
dimensions the environment reports for that image file); `sub src x y w h`
is a fresh `w×h` SRCALPHA surface onto which `src` was blitted with source
area `(x, y, w, h)`; `scaled` is `pygame.transform.smoothscale`. -/
inductive Surface where
  | base (path : String) (w h : Int)
  | sub (src : Surface) (x y w h : Int)
  | scaled (src : Surface) (w h : Int)
deriving DecidableEq

/-- Width in pixels (`Surface.get_width()`). -/
def Surface.width : Surface → Int
  | .base _ w _ => w
  | .sub _ _ _ w _ => w
  | .scaled _ w _ => w

/-- Height in pixels (`Surface.get_height()`). -/
def Surface.height : Surface → Int
  | .base _ _ h => h
  | .sub _ _ _ _ h => h
  | .scaled _ _ h => h

/-- A Python `dict[str, str]` read pointwise (e.g. a tile's `properties`). -/
def Props : Type := String → Option String

/-- The empty dict `{}`. -/
def emptyProps : Props := fun _ => none

/-- `d[k] = v` on a pointwise dict. -/
def pset (d : Props) (k v : String) : Props :=
  fun x => if k = x then some v else d x

/-- `d.update(items)`: assign each key/value pair of `items` in order. -/
def pupdate (d : Props) (items : List (String × String)) : Props :=
  items.foldl (fun g kv => pset g kv.1 kv.2) d

/-- An `xml.etree.ElementTree.Element`: tag, attribute dict (as produced by
the XML parser, so keys are distinct), and child elements in document
order. -/
inductive XmlElement where
  | mk (tag : String) (attrs : List (String × String)) (children : List XmlElement)

/-- The element's tag. -/
def XmlElement.tag : XmlElement → String
  | .mk t _ _ => t

/-- The element's attribute list. -/
def XmlElement.attrs : XmlElement → List (String × String)
  | .mk _ a _ => a

/-- The element's children. -/
def XmlElement.children : XmlElement → List XmlElement
  | .mk _ _ c => c

/-- `element.attrib.get(k)`. -/
def attr (e : XmlElement) (k : String) : Option String :=
  (e.attrs.find? (fun p => p.1 == k)).map (fun p => p.2)

/-- `element.find(tag)`: first direct child with the given tag. -/
def findChild (e : XmlElement) (t : String) : Option XmlElement :=
  e.children.find? (fun c => c.tag == t)

/-- `element.findall(tag)`: all direct children with the given tag. -/
def findAll (e : XmlElement) (t : String) : List XmlElement :=
  e.children.filter (fun c => c.tag == t)

/-- `d[k] = v` on a string-keyed dict rendered as an item list: replace
the value in place if the key is present, otherwise append the pair
(CPython dict semantics). -/
def dictSet (l : List (String × α)) (k : String) (v : α) :
    List (String × α) :=
  if l.any (fun p => p.1 == k) then
    l.map (fun p => if p.1 == k then (k, v) else p)
  else l ++ [(k, v)]

/-- `attrib[k] = v` on an attribute dict. -/
def attrsSet (attrs : List (String × String)) (k v : String) :
    List (String × String) :=
  dictSet attrs k v

/-- Replace the first list element satisfying `p` by its image under `f`;
used to embed an in-place mutation of one child of an element tree. -/
def updateFirst (p : α → Bool) (f : α → α) : List α → List α
  | [] => []
  | x :: xs => if p x then f x :: xs else x :: updateFirst p f xs

/-- Insert `x` into `l` before the first element not below it. -/
def insortBy (le : α → α → Bool) (x : α) : List α → List α
  | [] => [x]
  | y :: ys => if le x y then x :: y :: ys else y :: insortBy le x ys

/-- Python's stable `sorted`, rendered as a structurally recursive stable
insertion sort. -/
def sortBy (le : α → α → Bool) : List α → List α
  | [] => []
  | x :: xs => insortBy le x (sortBy le xs)

/- ---------------------------------------------------------------------
`apps/level_editor/tmx_roundtrip.py`
--------------------------------------------------------------------- -/

/-- The fresh `<property name=key value=value>` element created by
`ET.SubElement(properties, "property", name=key, value=value)`. -/
def newPropertyElement (key value : String) : XmlElement :=
  .mk "property" [("name", key), ("value", value)] []

/-- Does this child match `prop.attrib.get("name") == key` in the loop of
`set_property` (restricted to `findall("property")` children)? -/
def propNamed (key : String) (c : XmlElement) : Bool :=
  c.tag == "property" && attr c "name" == some key

/-- Body of `set_property` applied to a `<properties>` element: update the
`value` attribute of the first `<property>` child named `key`, otherwise
append a new `<property name=key value=value>` child. -/
def setPropertyInProperties (pe : XmlElement) (key value : String) :
    XmlElement :=
  if pe.children.any (propNamed key) then
    .mk pe.tag pe.attrs
      (updateFirst (propNamed key)
        (fun pr => .mk pr.tag (attrsSet pr.attrs "value" value) pr.children)
        pe.children)
  else
    .mk pe.tag pe.attrs (pe.children ++ [newPropertyElement key value])

/-- `set_property(root, key, value)` of `tmx_roundtrip.py`: ensure a
`<properties>` element exists under the root (appending one if missing, as
`_ensure_properties_element` does), then add or replace the `<property>`
named `key` inside the first `<properties>` child. -/
def set_property (root : XmlElement) (key value : String) : XmlElement :=
  match findChild root "properties" with
  | some _ =>
      .mk root.tag root.attrs
        (updateFirst (fun c => c.tag == "properties")
          (fun pe => setPropertyInProperties pe key value) root.children)
  | none =>
      .mk root.tag root.attrs
        (root.children ++
          [.mk "properties" [] [newPropertyElement key value]])

/-- Modelled from the spec: `round_trip` serializes the element tree with
`ElementTree.write` and re-parses it with the game's map loader (`pytmx`);
serialization followed by parsing reproduces the same element tree, so the
write/reload step is the identity on the embedded tree.  (`pytmx` is an
external dependency, not part of the sources here.) -/
def write_reload (root : XmlElement) : XmlElement := root

/-- Modelled from the spec: the map-level properties that the game's map
loader (`pytmx.TiledMap`, an external dependency) reads from a TMX root:
it walks every `<properties>` child of the map element and every
`<property>` child thereof, assigning `name → value` into a dict, so a
later `<property>` with the same name overwrites an earlier one. -/
def pytmx_map_properties (root : XmlElement) : Props :=
  (findAll root "properties").foldl
    (fun acc pe =>
      (findAll pe "property").foldl
        (fun acc2 pr =>
          match attr pr "name" with
          | some n => pset acc2 n ((attr pr "value").getD "")
          | none => acc2)
        acc)
    emptyProps

/-- The value the reloaded map reports for map-level property `key` after
`round_trip` with a `set_property key value` transform, as `round_trip`
composes them: apply the edit, write the tree out, reload it with the map
loader, and read the property dict. -/
def round_trip_property (root : XmlElement) (key value : String) :
    Option String :=
  pytmx_map_properties (write_reload (set_property root key value)) key

/- ---------------------------------------------------------------------
`apps/level_editor/tileset_loader.py`
--------------------------------------------------------------------- -/

/-- Strip leading and trailing whitespace from a character list (the
whitespace stripping of Python `int(...)`). -/
def trimChars (cs : List Char) : List Char :=
  ((cs.dropWhile (fun c => c.isWhitespace)).reverse.dropWhile
    (fun c => c.isWhitespace)).reverse

/-- A non-empty all-digit character list read as a natural number. -/
def pyDigits (cs : List Char) : Option Nat :=
  if cs.isEmpty then none
  else if cs.all (fun c => c.isDigit) then
    some (cs.foldl (fun a c => a * 10 + (c.toNat - 48)) 0)
  else none

/-- Python `int(s)` on a string: optional surrounding whitespace, an
optional sign, then decimal digits; anything else raises `ValueError`
(embedded as `none`). -/
def pyInt (s : String) : Option Int :=
  match trimChars s.data with
  | '-' :: rest => (pyDigits rest).map (fun n => -(n : Int))
  | '+' :: rest => (pyDigits rest).map (fun n => (n : Int))
  | cs => (pyDigits cs).map (fun n => (n : Int))

/-- Split a character list on a separator character, keeping empty
groups (the semantics of Python `str.split(sep)`). -/
def splitOnChar (sep : Char) : List Char → List (List Char)
  | [] => [[]]
  | c :: rest =>
      match splitOnChar sep rest with
      | [] => [[]]
      | grp :: rs => if c = sep then [] :: grp :: rs else (c :: grp) :: rs

/-- The `/`-separated components of a path string. -/
def pathParts (p : String) : List String :=
  (splitOnChar '/' p.data).map (fun cs => String.mk cs)

/-- `pathlib.Path.parent` rendered on string paths: drop the last `/`
component. -/
def parentDir (p : String) : String :=
  String.intercalate "/" (pathParts p).dropLast

/-- `(tsx_path.parent / source).resolve()` rendered on string paths. -/
def joinResolve (p source : String) : String :=
  parentDir p ++ "/" ++ source

/-- `pathlib.Path.stem`: final component without its last extension. -/
def pathStem (p : String) : String :=
  let base := (pathParts p).getLastD p
  let parts := (splitOnChar '.' base.data).map (fun cs => String.mk cs)
  if parts.length ≤ 1 then base else String.intercalate "." parts.dropLast

/-- The effectful context `tileset_loader.py` runs in: which paths exist on
disk, what XML parsing of an existing file yields (`none` embeds
`ET.ParseError`), and the pixel dimensions `pygame.image.load` finds in an
image file (`none` embeds a `pygame.error`). -/
structure Env where
  files : String → Bool
  parse : String → Option XmlElement
  images : String → Option (Int × Int)

/-- `TilesetInfo` of `tileset_loader.py`. -/
structure TilesetInfo where
  name : String
  path : String
  image_path : Option String
  tile_width : Int
  tile_height : Int
  margin : Int
  spacing : Int
  columns : Int
  tile_count : Int
deriving DecidableEq

/-- `TileEntry` of `tileset_loader.py`. -/
structure TileEntry where
  tileset_name : String
  local_id : Int
  surface : Surface
  properties : Props
  is_animated : Bool

/-- `TilesetData` of `tileset_loader.py`. -/
structure TilesetData where
  info : TilesetInfo
  tiles : List TileEntry

/-- `_parse_properties(node)`: the dict of `<property name value>` entries
under the node's `<properties>` child; entries whose `name` attribute is
missing or empty (falsy) are skipped, a missing `value` attribute defaults
to `""`. -/
def parse_properties (node : XmlElement) : Props :=
  match findChild node "properties" with
  | none => emptyProps
  | some pn =>
      (findAll pn "property").foldl
        (fun acc pr =>
          match attr pr "name" with
          | some n => if n = "" then acc else pset acc n ((attr pr "value").getD "")
          | none => acc)
        emptyProps

/-- `_load_tileset_xml(tsx_path)`: `ET.parse` raises `FileNotFoundError`
on a missing path (which the function does not catch) and `ET.ParseError`
on malformed XML (which it wraps in `TilesetLoadError`). -/
def load_tileset_xml (env : Env) (tsx_path : String) :
    Except PyError XmlElement :=
  if env.files tsx_path then
    match env.parse tsx_path with
    | none => .error (.tilesetLoadError ("Invalid TSX XML: " ++ tsx_path))
    | some root => .ok root
  else .error (.fileNotFoundError tsx_path)

/-- `int(element.attrib[k])`: `KeyError` when absent, `ValueError` when not
numeric. -/
def getIntAttr (e : XmlElement) (k : String) : Except PyError Int :=
  match attr e k with
  | none => .error (.keyError k)
  | some s =>
      match pyInt s with
      | none => .error (.valueError s)
      | some n => .ok n

/-- `int(element.attrib.get(k, d))` with an integer default `d`. -/
def getIntAttrD (e : XmlElement) (k : String) (d : Int) : Except PyError Int :=
  match attr e k with
  | none => .ok d
  | some s =>
      match pyInt s with
      | none => .error (.valueError s)
      | some n => .ok n

/-- `int(tile_node.attrib.get("id", -1))`. -/
def tileNodeId (t : XmlElement) : Except PyError Int :=
  getIntAttrD t "id" (-1)

/-- The loop of `load_tileset` that fills the `tile_props` and `animations`
dicts from the `<tile>` children (skipping negative ids, recording
per-tile properties and whether an `<animation>` child exists). -/
def collectTileLoop (nodes : List XmlElement)
    (tp : Int → Option Props) (an : Int → Bool) :
    Except PyError ((Int → Option Props) × (Int → Bool)) :=
  match nodes with
  | [] => .ok (tp, an)
  | t :: rest =>
      match tileNodeId t with
      | .error e => .error e
      | .ok tid =>
          if tid < 0 then collectTileLoop rest tp an
          else
            collectTileLoop rest
              (fun x => if tid = x then some (parse_properties t) else tp x)
              (if (findChild t "animation").isSome then
                (fun x => if tid = x then true else an x)
              else an)

/-- The `tile_props` / `animations` dicts of `load_tileset`. -/
def collect_tile_props (root : XmlElement) :
    Except PyError ((Int → Option Props) × (Int → Bool)) :=
  collectTileLoop (findAll root "tile") (fun _ => none) (fun _ => false)

/-- `_slice_tiles`: for each local id in `range(tile_count)` compute the
source rectangle from margin/spacing/columns (with `cols = max(1,
columns)`) and blit it onto a fresh tile-sized surface. -/
def slice_tiles (tileset_info : TilesetInfo) (image : Surface)
    (tile_props : Int → Option Props) (animations : Int → Bool) :
    List TileEntry :=
  let tw := tileset_info.tile_width
  let th := tileset_info.tile_height
  let cols := max 1 tileset_info.columns
  (List.range tileset_info.tile_count.toNat).map (fun (n : Nat) =>
    let local_id : Int := Int.ofNat n
    let col := local_id % cols
    let row := local_id.fdiv cols
    let x := tileset_info.margin + col * (tw + tileset_info.spacing)
    let y := tileset_info.margin + row * (th + tileset_info.spacing)
    { tileset_name := tileset_info.name
      local_id := local_id
      surface := .sub image x y tw th
      properties := (tile_props local_id).getD emptyProps
      is_animated := animations local_id })

/-- The loop of `_load_collection_tiles` over the `<tile>` children:
skip nodes with negative id, no `<image>` child, or a missing/empty
`source`; raise `TilesetLoadError` when the referenced image file is
missing or fails to load; otherwise smooth-scale the image to tile size
and emit a `TileEntry`. -/
def collectionLoop (env : Env) (name : String) (tsx_path : String)
    (tile_width tile_height : Int)
    (tile_props : Int → Option Props) (animations : Int → Bool) :
    List XmlElement → Except PyError (List TileEntry)
  | [] => .ok []
  | t :: rest =>
      match tileNodeId t with
      | .error e => .error e
      | .ok tid =>
          match findChild t "image" with
          | none => collectionLoop env name tsx_path tile_width tile_height
              tile_props animations rest
          | some imageNode =>
              if tid < 0 then
                collectionLoop env name tsx_path tile_width tile_height
                  tile_props animations rest
              else
                match attr imageNode "source" with
                | none => collectionLoop env name tsx_path tile_width
                    tile_height tile_props animations rest
                | some source =>
                    if source = "" then
                      collectionLoop env name tsx_path tile_width tile_height
                        tile_props animations rest
                    else
                      let image_path := joinResolve tsx_path source
                      if env.files image_path then
                        match env.images image_path with
                        | none => .error (.tilesetLoadError
                            ("Failed to load tile image: " ++ image_path))
                        | some wh =>
                            match collectionLoop env name tsx_path tile_width
                              tile_height tile_props animations rest with
                            | .error e => .error e
                            | .ok tiles => .ok
                                ({ tileset_name := name
                                   local_id := tid
                                   surface := .scaled
                                     (.base image_path wh.1 wh.2)
                                     tile_width tile_height
                                   properties := (tile_props tid).getD emptyProps
                                   is_animated := animations tid } :: tiles)
                      else .error (.tilesetLoadError
                          ("Tile image not found: " ++ image_path))

/-- `_load_collection_tiles`: process the `<tile>` children then return the
entries sorted by `local_id` (`sorted(tiles, key=lambda t: t.local_id)`). -/
def load_collection_tiles (env : Env) (root : XmlElement) (tsx_path : String)
    (tile_width tile_height : Int)
    (tile_props : Int → Option Props) (animations : Int → Bool) :
    Except PyError (List TileEntry) :=
  match collectionLoop env ((attr root "name").getD (pathStem tsx_path))
      tsx_path tile_width tile_height tile_props animations
      (findAll root "tile") with
  | .error e => .error e
  | .ok tiles => .ok (sortBy (fun a b => a.local_id ≤ b.local_id) tiles)

/-- The `tile_count == 0` branch of `load_tileset`, deriving a count from
the image dimensions (`//` with a zero tile size raises
`ZeroDivisionError`). -/
def deriveTileCount (columns tile_width tile_height w h : Int) :
    Except PyError Int :=
  match (if 0 < columns then .ok columns
         else if tile_width = 0 then .error .zeroDivisionError
         else .ok (max 1 (w.fdiv tile_width)) : Except PyError Int) with
  | .error e => .error e
  | .ok cols =>
      if tile_height = 0 then .error .zeroDivisionError
      else .ok (cols * max 1 (h.fdiv tile_height))

/-- The branch of `load_tileset` taken when the root has an `<image>`
child: validate and load the sheet image, derive the tile count when the
`tilecount` attribute was 0/absent, and slice the tiles. -/
def loadSheetBranch (env : Env) (tsx_path : String) (imageNode : XmlElement)
    (name : String) (tile_width tile_height tile_count columns margin
    spacing : Int) (tile_props : Int → Option Props)
    (animations : Int → Bool) : Except PyError TilesetData :=
  match attr imageNode "source" with
  | none => .error (.tilesetLoadError
      ("Tileset image source missing: " ++ tsx_path))
  | some source =>
      if source = "" then
        .error (.tilesetLoadError ("Tileset image source missing: " ++ tsx_path))
      else
        let image_path := joinResolve tsx_path source
        if env.files image_path then
          match env.images image_path with
          | none => .error (.tilesetLoadError
              ("Failed to load tileset image: " ++ image_path))
          | some wh =>
              match (if tile_count = 0 then
                       deriveTileCount columns tile_width tile_height wh.1 wh.2
                     else .ok tile_count) with
              | .error e => .error e
              | .ok tc =>
                  let info : TilesetInfo :=
                    { name := name
                      path := tsx_path
                      image_path := some image_path
                      tile_width := tile_width
                      tile_height := tile_height
                      margin := margin
                      spacing := spacing
                      columns := columns
                      tile_count := tc }
                  .ok { info := info
                        tiles := slice_tiles info (.base image_path wh.1 wh.2)
                          tile_props animations }
  else .error (.tilesetLoadError ("Tileset image not found: " ++ image_path))

/-- The branch of `load_tileset` taken when the root has no `<image>`
child (a collection tileset whose tiles reference their own images). -/
def loadCollectionBranch (env : Env) (root : XmlElement) (tsx_path : String)
    (name : String) (tile_width tile_height columns : Int)
    (tile_props : Int → Option Props) (animations : Int → Bool) :
    Except PyError TilesetData :=
  match load_collection_tiles env root tsx_path tile_width tile_height
      tile_props animations with
  | .error e => .error e
  | .ok tiles =>
      if tiles.isEmpty then
        .error (.tilesetLoadError
          ("Tileset missing <image> and no tile images found: " ++ tsx_path))
      else
        .ok { info :=
                { name := name
                  path := tsx_path
                  image_path := none
                  tile_width := tile_width
                  tile_height := tile_height
                  margin := 0
                  spacing := 0
                  columns := max 1 (if 0 < columns then columns
                    else (tiles.length : Int))
                  tile_count := (tiles.length : Int) }
              tiles := tiles }

/-- `load_tileset(tsx_path)` of `tileset_loader.py` (path resolution is the
identity on the already-absolute string paths of the embedding). -/
def load_tileset (env : Env) (tsx_path : String) : Except PyError TilesetData :=
  match load_tileset_xml env tsx_path with
  | .error e => .error e
  | .ok root =>
      let name := (attr root "name").getD (pathStem tsx_path)
      match getIntAttr root "tilewidth" with
      | .error e => .error e
      | .ok tile_width =>
          match getIntAttr root "tileheight" with
          | .error e => .error e
          | .ok tile_height =>
              match getIntAttrD root "tilecount" 0 with
              | .error e => .error e
              | .ok tile_count =>
                  match getIntAttrD root "columns" 1 with
                  | .error e => .error e
                  | .ok columns =>
                      match getIntAttrD root "margin" 0 with
                      | .error e => .error e
                      | .ok margin =>
                          match getIntAttrD root "spacing" 0 with
                          | .error e => .error e
                          | .ok spacing =>
                              match collect_tile_props root with
                              | .error e => .error e
                              | .ok tpan =>
                                  match findChild root "image" with
                                  | some imageNode =>
                                      loadSheetBranch env tsx_path imageNode
                                        name tile_width tile_height tile_count
                                        columns margin spacing tpan.1 tpan.2
                                  | none =>
                                      loadCollectionBranch env root tsx_path
                                        name tile_width tile_height columns
                                        tpan.1 tpan.2

/-- `load_tilesets(tsx_paths)`: build the name-keyed cache dict. -/
def load_tilesets (env : Env) (tsx_paths : List String) :
    Except PyError (List (String × TilesetData)) :=
  tsx_paths.foldlM
    (fun cache p =>
      match load_tileset env p with
      | .error e => .error e
      | .ok data =>
          .ok (if cache.any (fun q => q.1 == data.info.name) then
                 cache.map (fun q => if q.1 == data.info.name then
                   (data.info.name, data) else q)
               else cache ++ [(data.info.name, data)]))
    []

/- ---------------------------------------------------------------------
`apps/level_editor/metadata.py`
--------------------------------------------------------------------- -/

/-- One entry of a category's `ids` list in the metadata JSON: a single
(already `int`-converted) id, an inclusive `[start, end]` two-element
range, or anything else (which `_expand_ids` maps to `[]`). -/
inductive IdEntry where
  | single (n : Int)
  | range (a b : Int)
  | other
deriving DecidableEq

/-- One element of a tileset's `categories` metadata list: its `name` and
`ids` fields (a missing name is embedded as `""`, which is equally falsy
in the `if not cat_name` guard). -/
structure CategoryMeta where
  name : String
  ids : List IdEntry

/-- A tileset's metadata dict: its `categories` list and its `properties`
mapping (tile id, already `int`-converted, to the key/value items of the
per-tile property dict; string values already `str`-converted). -/
structure TilesetMeta where
  categories : List CategoryMeta
  properties : List (Int × List (String × String))

/-- A metadata side-file: a dict keyed by tileset name. -/
abbrev Metadata : Type := List (String × TilesetMeta)

/-- `list(range(a, b + 1))`. -/
def rangeList (a b : Int) : List Int :=
  (List.range (b + 1 - a).toNat).map (fun (n : Nat) => a + (n : Int))

/-- `_expand_ids(id_entry)` of `metadata.py`. -/
def expand_ids : IdEntry → List Int
  | .single n => [n]
  | .range a b => rangeList a b
  | .other => []

/-- The set `cats_by_id[tid]` of `apply_metadata`, read back in the only
way the code observes it — `sorted(...)`: the sorted, deduplicated list of
names of the categories (with non-falsy name) one of whose id entries
expands to a list containing `tid`.  An absent key is the empty list. -/
def catsFor (cats : List CategoryMeta) (tid : Int) : List String :=
  sortBy (fun a b => a ≤ b)
    (((cats.filter (fun c => !(c.name == "") &&
        c.ids.any (fun e => (expand_ids e).contains tid))).map
      (fun c => c.name)).eraseDups)

/-- The dict `props_by_id` of `apply_metadata`, looked up at `tid`: the
last binding wins, as in the dict comprehension that builds it. -/
def propsFor (ps : List (Int × List (String × String))) (tid : Int) :
    Option (List (String × String)) :=
  (ps.reverse.find? (fun q => q.1 == tid)).map (fun q => q.2)

/-- `",".join(parts)`. -/
def strJoin (sep : String) : List String → String
  | [] => ""
  | [x] => x
  | x :: xs => x ++ sep ++ strJoin sep xs

/-- What `apply_metadata`'s final loop does to the `properties` dict of a
tile with local id `tid`: update it from `props_by_id` when `tid` has an
entry there, then set the `"category"` property to the comma-joined sorted
category set when `tid` has one. -/
def propsOverlay (meta : TilesetMeta) (tid : Int) (p : Props) : Props :=
  let props1 :=
    match propsFor meta.properties tid with
    | some items => pupdate p items
    | none => p
  let cats := catsFor meta.categories tid
  if cats.isEmpty then props1
  else pset props1 "category" (strJoin "," cats)

/-- The per-tile body of `apply_metadata`'s final loop. -/
def tile_apply (meta : TilesetMeta) (t : TileEntry) : TileEntry :=
  { t with properties := propsOverlay meta t.local_id t.properties }

/-- `apply_metadata`'s effect on one cached tileset. -/
def tileset_apply (meta : TilesetMeta) (ts : TilesetData) : TilesetData :=
  { ts with tiles := ts.tiles.map (tile_apply meta) }

/-- `apply_metadata(cache, metadata)` of `metadata.py`: for each metadata
entry whose tileset name is present in the cache, overlay
properties/categories onto that tileset's tiles (the cache is mutated in
place in Python; the embedding returns the updated cache). -/
def apply_metadata (cache : List (String × TilesetData)) (metadata : Metadata) :
    List (String × TilesetData) :=
  metadata.foldl
    (fun c q =>
      if c.any (fun e => e.1 == q.1) then
        c.map (fun e => if e.1 == q.1 then (e.1, tileset_apply q.2 e.2) else e)
      else c)
    cache

/- ---------------------------------------------------------------------
`apps/level_editor/palette_model.py`
--------------------------------------------------------------------- -/

/-- `FilterFn` of `palette_model.py`. -/
def FilterFn : Type := TileEntry → Bool

/-- `PaletteState` of `palette_model.py` (`page_size` and `page_index` are
Python ints). -/
structure PaletteState where
  tileset_name : Option String := none
  page_size : Int := 25
  page_index : Int := 0
  filter_fn : Option FilterFn := none

/-- `PaletteModel` of `palette_model.py`: the tileset cache dict plus the
paging state. -/
structure PaletteModel where
  tilesets : List (String × TilesetData)
  state : PaletteState

/-- The `active_tiles` property: `[]` when no tileset is selected (or the
selected name is the falsy `""`), otherwise the tiles of the selected
tileset filtered by `filter_fn`; `none` embeds the `KeyError` of
`self.tilesets[name]` on a name not in the cache. -/
def active_tiles (m : PaletteModel) : Option (List TileEntry) :=
  match m.state.tileset_name with
  | none => some []
  | some n =>
      if n = "" then some []
      else
        match m.tilesets.find? (fun q => q.1 == n) with
        | none => none
        | some q =>
            match m.state.filter_fn with
            | none => some q.2.tiles
            | some f => some (q.2.tiles.filter f)

/-- The `page_count` property: `0` on an empty (falsy) `active_tiles`,
otherwise `(total + page_size - 1) // page_size` (Python floor division;
`none` embeds a `KeyError` from `active_tiles` or the `ZeroDivisionError`
of a zero `page_size`). -/
def page_count (m : PaletteModel) : Option Int :=
  match active_tiles m with
  | none => none
  | some ts =>
      if ts.isEmpty then some 0
      else if m.state.page_size = 0 then none
      else some (Int.fdiv ((ts.length : Int) + m.state.page_size - 1)
        m.state.page_size)

/-- Rebuild a palette model with a new `page_index`. -/
def withPageIndex (m : PaletteModel) (i : Int) : PaletteModel :=
  { m with state := { m.state with page_index := i } }

/-- `next_page`: increment `page_index` when `page_index + 1 < page_count`
(reading the `page_count` property can raise, which `none` embeds). -/
def next_page (m : PaletteModel) : Option PaletteModel :=
  match page_count m with
  | none => none
  | some pc =>
      some (if m.state.page_index + 1 < pc then
        withPageIndex m (m.state.page_index + 1) else m)

/-- `prev_page`: decrement `page_index` when it is positive. -/
def prev_page (m : PaletteModel) : PaletteModel :=
  if 0 < m.state.page_index then withPageIndex m (m.state.page_index - 1) else m

/-- A call to `next_page` or `prev_page`. -/
inductive PaletteOp where
  | next
  | prev

/-- Run a sequence of `next_page` / `prev_page` calls. -/
def runOps (m : PaletteModel) : List PaletteOp → Option PaletteModel
  | [] => some m
  | .next :: rest =>
      match next_page m with
      | none => none
      | some m2 => runOps m2 rest
  | .prev :: rest => runOps (prev_page m) rest

/- ---------------------------------------------------------------------
`src/services/load_from_json_manager.py`
--------------------------------------------------------------------- -/

/-- A Python value as it appears in the class-data structure: JSON
scalars/containers plus the `Skill` objects that `load_classes` writes
into the `skills` lists. -/
inductive PyValue where
  | null
  | int (n : Int)
  | str (s : String)
  | list (xs : List PyValue)
  | dict (d : List (String × PyValue))
  | skill (name : String)

/-- `d.get(k)` on an embedded dict item list. -/
def pyLookup (d : List (String × PyValue)) (k : String) : Option PyValue :=
  (d.find? (fun q => q.1 == k)).map (fun q => q.2)

/-- `d.setdefault(k, v)`: keep the dict unchanged when `k` is present,
otherwise append the new binding. -/
def pySetdefault (d : List (String × PyValue)) (k : String) (v : PyValue) :
    List (String × PyValue) :=
  if (pyLookup d k).isSome then d else d ++ [(k, v)]

/-- `d[k] = v`: replace the binding in place when present, else append. -/
def pyDictSet (d : List (String × PyValue)) (k : String) (v : PyValue) :
    List (String × PyValue) :=
  dictSet d k v

/-- `x.get(k)` on a `PyValue` known to be used as a dict. -/
def vLookup (x : PyValue) (k : String) : Option PyValue :=
  match x with
  | .dict d => pyLookup d k
  | _ => none

/-- Iterating a Python value in a `for` loop / comprehension: lists yield
their elements, strings their characters (as one-character strings),
dicts their keys; the rest raise `TypeError`. -/
def pyIter : PyValue → Except PyError (List PyValue)
  | .list xs => .ok xs
  | .str s => .ok (s.toList.map (fun c => .str (String.singleton c)))
  | .dict d => .ok (d.map (fun q => .str q.1))
  | _ => .error (.typeError "not iterable")

/-- Modelled from the spec: `get_skill_data` (defined in
`load_from_xml_manager.py`, which is not among the sources here) builds
the fully constructed `Skill` object for a skill name. -/
def get_skill_data (x : PyValue) : PyValue :=
  .skill (match x with
          | .str s => s
          | _ => "")

/-- The two `setdefault` calls injecting the missing numeric defaults of
a class entry. -/
def classDefaults (d : List (String × PyValue)) : List (String × PyValue) :=
  pySetdefault (pySetdefault d "constitution" (.int 0)) "move" (.int 0)

/-- The four `setdefault` calls ensuring the `stats_up` sub-keys exist as
lists. -/
def statsDefaults (st : List (String × PyValue)) : List (String × PyValue) :=
  pySetdefault (pySetdefault (pySetdefault (pySetdefault st
    "hp" (.list [])) "def" (.list [])) "res" (.list [])) "str" (.list [])

/-- The class dict after its `stats_up` sub-dict has been normalized in
place. -/
def classWithStats (d st : List (String × PyValue)) :
    List (String × PyValue) :=
  pyDictSet (classDefaults d) "stats_up" (.dict (statsDefaults st))

/-- `_class.get("skills", ())` iterated: the list of values the skills
loop runs over. -/
def skillsOf (d3 : List (String × PyValue)) : Except PyError (List PyValue) :=
  match pyLookup d3 "skills" with
  | none => .ok []
  | some v => pyIter v

/-- The body of the `for _class in classes.values()` loop of
`load_classes`: inject the missing `constitution` / `move` defaults,
default the `hp`/`def`/`res`/`str` sub-keys of the (required) `stats_up`
dict, and replace the `skills` list (defaulting to the empty tuple) by
built `Skill` objects. -/
def normalize_class (x : PyValue) : Except PyError PyValue :=
  match x with
  | .dict d =>
      match pyLookup (classDefaults d) "stats_up" with
      | none => .error (.keyError "stats_up")
      | some (.dict st) =>
          match skillsOf (classWithStats d st) with
          | .error e => .error e
          | .ok names =>
              .ok (.dict (pyDictSet (classWithStats d st) "skills"
                (.list (names.map get_skill_data))))
      | some _ => .error (.attributeError "setdefault")
  | _ => .error (.attributeError "setdefault")

/-- The loop of `load_classes` over the entries of the top-level dict. -/
def normalizeEntries :
    List (String × PyValue) → Except PyError (List (String × PyValue))
  | [] => .ok []
  | (k, v) :: rest =>
      match normalize_class v with
      | .error e => .error e
      | .ok v2 =>
          match normalizeEntries rest with
          | .error e => .error e
          | .ok rest2 => .ok ((k, v2) :: rest2)

/-- `load_classes()` of `load_from_json_manager.py`, applied to the value
parsed from `data/classes.json`: normalize every class entry in place and
return the mapping. -/
def load_classes (x : PyValue) : Except PyError PyValue :=
  match x with
  | .dict cs =>
      match normalizeEntries cs with
      | .error e => .error e
      | .ok cs2 => .ok (.dict cs2)
  | _ => .error (.attributeError "values")

/- ---------------------------------------------------------------------
Derived definitions used by the verification statements
--------------------------------------------------------------------- -/

/-- The value bound to key `x` by the last assignment among `items`
(`none` when no item has key `x`): the pointwise content of a dict built
by assigning the items in order. -/
def lastVal : List (String × String) → String → Option String
  | [], _ => none
  | kv :: rest, x =>
      match lastVal rest x with
      | some v => some v
      | none => if kv.1 = x then some kv.2 else none

/-- The value of the last element of `l` that carries attribute
`name = k` (reading a missing `value` attribute as `""`): the pointwise
content of the dict the map loader builds from property elements. -/
def lastNamedValue : List XmlElement → String → Option String
  | [], _ => none
  | e :: rest, k =>
      match lastNamedValue rest k with
      | some v => some v
      | none =>
          match attr e "name" with
          | some n => if n = k then some ((attr e "value").getD "") else none
          | none => none

/-- All `<property>` elements under all `<properties>` children of the
root, in document order: the elements the map loader walks. -/
def allMapProps (root : XmlElement) : List XmlElement :=
  ((findAll root "properties").map (fun pe => findAll pe "property")).flatten

/-- The sequence of `apply_metadata` steps that reach the cache entry
named `n`: fold the metadata entries, applying those whose tileset name
matches. -/
def applySeq (md : Metadata) (n : String) (ts : TilesetData) : TilesetData :=
  md.foldl (fun t q => if q.1 == n then tileset_apply q.2 t else t) ts

/-- Everything of a `TileEntry` except its `properties` dict. -/
def tileFrame (t t' : TileEntry) : Prop :=
  t'.tileset_name = t.tileset_name ∧ t'.local_id = t.local_id ∧
  t'.surface = t.surface ∧ t'.is_animated = t.is_animated

/-- Did the computation finish normally or with the dedicated
`TilesetLoadError`? (`false` means some other exception escaped.) -/
def okOrLoadError : Except PyError α → Bool
  | .ok _ => true
  | .error (.tilesetLoadError _) => true
  | .error _ => false

/-- The id a `<tile>` node parses to, when `int(attrib.get("id", -1))`
succeeds. -/
def parsedId (t : XmlElement) : Option Int :=
  (tileNodeId t).toOption

/-- The local ids of the tiles of a loaded tileset (when loading
succeeded). -/
def loadedLocalIds (r : Except PyError TilesetData) : Option (List Int) :=
  r.toOption.map (fun d => d.tiles.map (fun t => t.local_id))

/-- Has the list of local ids no duplicates? -/
def dupFree (l : List Int) : Bool :=
  l == l.eraseDups

/-- The shape `load_classes` guarantees for a normalized class entry
`out` loaded from source entry `src`: `constitution`, `move` and `skills`
are present (defaulted to `0`, `0` and `[]` when absent from the source,
with every `skills` element a built `Skill` object), and the `stats_up`
dict is present with its `hp`/`def`/`res`/`str` keys (each defaulted to
the empty list when absent from the source). -/
def normalized_entry (src out : PyValue) : Prop :=
  (vLookup out "constitution").isSome ∧
  (vLookup src "constitution" = none →
    vLookup out "constitution" = some (.int 0)) ∧
  (vLookup out "move").isSome ∧
  (vLookup src "move" = none → vLookup out "move" = some (.int 0)) ∧
  (∃ xs, vLookup out "skills" = some (.list xs) ∧
    ∀ y ∈ xs, ∃ s, y = PyValue.skill s) ∧
  (vLookup src "skills" = none → vLookup out "skills" = some (.list [])) ∧
  (∃ st, vLookup out "stats_up" = some (.dict st) ∧
    (pyLookup st "hp").isSome ∧ (pyLookup st "def").isSome ∧
    (pyLookup st "res").isSome ∧ (pyLookup st "str").isSome ∧
    (∀ st0, vLookup src "stats_up" = some (.dict st0) →
      (pyLookup st0 "hp" = none → pyLookup st "hp" = some (.list [])) ∧
      (pyLookup st0 "def" = none → pyLookup st "def" = some (.list [])) ∧
      (pyLookup st0 "res" = none → pyLookup st "res" = some (.list [])) ∧
      (pyLookup st0 "str" = none → pyLookup st "str" = some (.list []))))

/- Concrete sample data used by witnesses and counterexamples. -/

/-- A sample tile with the given local id. -/
def sampleTile (i : Int) : TileEntry :=
  { tileset_name := "terrain"
    local_id := i
    surface := .base "terrain.png" 64 64
    properties := emptyProps
    is_animated := false }

/-- A sample cached tileset with tiles 4, 5, 8, 9. -/
def sampleTileset : TilesetData :=
  { info :=
      { name := "terrain"
        path := "d/terrain.tsx"
        image_path := some "d/terrain.png"
        tile_width := 16
        tile_height := 16
        margin := 0
        spacing := 0
        columns := 2
        tile_count := 4 }
    tiles := [sampleTile 4, sampleTile 5, sampleTile 8, sampleTile 9] }

/-- A sample palette model over `sampleTileset` with page size 3. -/
def samplePalette : PaletteModel :=
  { tilesets := [("terrain", sampleTileset)]
    state :=
      { tileset_name := some "terrain"
        page_size := 3
        page_index := 0
        filter_fn := none } }

/-- A sample metadata side-file tagging tiles 5–8 of `terrain`. -/
def sampleMetadata : Metadata :=
  [("terrain",
    { categories := [{ name := "ground", ids := [.range 5 8] }]
      properties := [(4, [("blocking", "true")])] })]

/-- A TMX root whose `<properties>` element holds two `<property>`
elements that share the name `k` (well-formed XML, but a degenerate
property table). -/
def dupPropsRoot : XmlElement :=
  .mk "map" []
    [.mk "properties" []
      [.mk "property" [("name", "k"), ("value", "old1")] [],
       .mk "property" [("name", "k"), ("value", "old2")] []]]

/-- An environment with no files at all. -/
def emptyEnv : Env :=
  { files := fun _ => false
    parse := fun _ => none
    images := fun _ => none }

/-- A `<tile>` collection node with the given id attribute, referencing
image `a.png`. -/
def collTileNode (i : String) : XmlElement :=
  .mk "tile" [("id", i)] [.mk "image" [("source", "a.png")] []]

/-- A collection-tileset TSX root whose two `<tile>` nodes carry the same
id 3. -/
def dupIdRoot : XmlElement :=
  .mk "tileset" [("name", "coll"), ("tilewidth", "16"), ("tileheight", "16")]
    [collTileNode "3", collTileNode "3"]

/-- An environment serving `dupIdRoot` at `d/t.tsx` with its tile image
present. -/
def dupIdEnv : Env :=
  { files := fun q => q == "d/t.tsx" || q == "d/a.png"
    parse := fun q => if q == "d/t.tsx" then some dupIdRoot else none
    images := fun q => if q == "d/a.png" then some (4, 4) else none }

/-- A sheet-tileset TSX root: 2 columns, 4 tiles of 8×8 pixels. -/
def sheetRoot : XmlElement :=
  .mk "tileset"
    [("name", "sh"), ("tilewidth", "8"), ("tileheight", "8"),
     ("tilecount", "4"), ("columns", "2")]
    [.mk "image" [("source", "s.png")] []]

/-- An environment serving `sheetRoot` at `d/t.tsx` but with the sheet
image `d/s.png` missing on disk. -/
def sheetNoImageEnv : Env :=
  { files := fun q => q == "d/t.tsx"
    parse := fun q => if q == "d/t.tsx" then some sheetRoot else none
    images := fun _ => none }

/-- An environment serving `sheetRoot` at `d/t.tsx` where `d/s.png`
exists and loads with dimensions 16×16. -/
def sheetEnv : Env :=
  { files := fun q => q == "d/t.tsx" || q == "d/s.png"
    parse := fun q => if q == "d/t.tsx" then some sheetRoot else none
    images := fun q => if q == "d/s.png" then some (16, 16) else none }

/-- A sheet-tileset TSX root like `sheetRoot` but carrying two `<tile>`
property nodes with the same id 0 (duplicate ids are harmless for sheet
tilesets, whose tile list comes from `range(tile_count)`). -/
def dupTileSheetRoot : XmlElement :=
  .mk "tileset"
    [("name", "sh"), ("tilewidth", "8"), ("tileheight", "8"),
     ("tilecount", "4"), ("columns", "2")]
    [.mk "image" [("source", "s.png")] [],
     .mk "tile" [("id", "0")]
       [.mk "properties" []
         [.mk "property" [("name", "k"), ("value", "1")] []]],
     .mk "tile" [("id", "0")]
       [.mk "properties" []
         [.mk "property" [("name", "k"), ("value", "2")] []]]]

/-- An environment serving `dupTileSheetRoot` at `d/t.tsx` where the
sheet image `d/s.png` loads with dimensions 16×16. -/
def dupTileSheetEnv : Env :=
  { files := fun q => q == "d/t.tsx" || q == "d/s.png"
    parse := fun q => if q == "d/t.tsx" then some dupTileSheetRoot else none
    images := fun q => if q == "d/s.png" then some (16, 16) else none }

/-- A sample class-data JSON value: one class with a partial `stats_up`
and one skill name. -/
def sampleClasses : List (String × PyValue) :=
  [("warrior",
    .dict [("stats_up", .dict [("hp", .list [.int 4])]),
           ("skills", .list [.str "bash"])])]

/- ---------------------------------------------------------------------
Theorems
--------------------------------------------------------------------- -/

/-- C2: for a tileset with an `<image>` sheet, `tile_count` tiles and
`columns = C ≥ 1`, the tile with local id `i` (`0 ≤ i < tile_count`) is
sliced from the sheet at pixel offset
`x = margin + (i % C) * (tile_width + spacing)`,
`y = margin + (i // C) * (tile_height + spacing)`, with size
`tile_width × tile_height`, and carries that id, its properties and its
animation flag. -/
theorem c2_slice_tiles_offsets (info : TilesetInfo) (image : Surface)
    (tp : Int → Option Props) (an : Int → Bool)
    (hcols : 1 ≤ info.columns) (i : Nat) (hi : i < info.tile_count.toNat) :
    (slice_tiles info image tp an)[i]? =
      some
        { tileset_name := info.name
          local_id := (i : Int)
          surface := .sub image
            (info.margin +
              ((i : Int) % info.columns) * (info.tile_width + info.spacing))
            (info.margin +
              ((i : Int).fdiv info.columns) * (info.tile_height + info.spacing))
            info.tile_width info.tile_height
          properties := (tp (i : Int)).getD emptyProps
          is_animated := an (i : Int) } := by
  unfold slice_tiles
  rw [List.getElem?_map, List.getElem?_range hi]
  rw [max_eq_right hcols]
  rfl

/-- Witness for C2 at a concrete 2-column tileset and `i = 3`. -/
theorem c2_witness :
    (slice_tiles sampleTileset.info (.base "terrain.png" 64 64)
        (fun _ => none) (fun _ => false))[3]? =
      some
        { tileset_name := sampleTileset.info.name
          local_id := ((3 : Nat) : Int)
          surface := .sub (.base "terrain.png" 64 64)
            (sampleTileset.info.margin +
              (((3 : Nat) : Int) % sampleTileset.info.columns) *
                (sampleTileset.info.tile_width + sampleTileset.info.spacing))
            (sampleTileset.info.margin +
              (((3 : Nat) : Int).fdiv sampleTileset.info.columns) *
                (sampleTileset.info.tile_height + sampleTileset.info.spacing))
            sampleTileset.info.tile_width sampleTileset.info.tile_height
          properties := ((fun _ => none) ((3 : Nat) : Int)).getD emptyProps
          is_animated := (fun _ => false) ((3 : Nat) : Int) } :=
  c2_slice_tiles_offsets sampleTileset.info (.base "terrain.png" 64 64)
    (fun _ => none) (fun _ => false) (by decide) 3 (by decide)

/-- Python floor division realizes the rational ceiling:
`(T + P - 1) // P = ⌈T / P⌉` for a natural `T` and a positive `P`. -/
theorem fdiv_eq_ceil (T : ℕ) (P : ℤ) (hP : 1 ≤ P) :
    Int.fdiv ((T : ℤ) + P - 1) P = ⌈(T : ℚ) / (P : ℚ)⌉ := by
  have hP0 : (0 : ℤ) < P := hP
  rw [Int.fdiv_eq_ediv _ (le_of_lt hP0)]
  set a : ℤ := (T : ℤ) + P - 1 with ha
  set q : ℤ := a / P with hq
  have hmod : P * q + a % P = a := Int.ediv_add_emod a P
  have hm0 : 0 ≤ a % P := Int.emod_nonneg a (ne_of_gt hP0)
  have hm1 : a % P < P := Int.emod_lt_of_pos a hP0
  have hub : (T : ℤ) ≤ P * q := by omega
  have hlb : P * q - P < (T : ℤ) := by omega
  have hPQ : (0 : ℚ) < (P : ℚ) := by exact_mod_cast hP0
  symm
  rw [Int.ceil_eq_iff]
  constructor
  · rw [lt_div_iff₀ hPQ]
    have h1 : (P : ℚ) * (q : ℚ) - (P : ℚ) < (T : ℚ) := by exact_mod_cast hlb
    have h2 : ((q : ℚ) - 1) * (P : ℚ) = (P : ℚ) * (q : ℚ) - (P : ℚ) := by ring
    rw [h2]
    exact h1
  · rw [div_le_iff₀ hPQ]
    have h1 : (T : ℚ) ≤ (P : ℚ) * (q : ℚ) := by exact_mod_cast hub
    have h2 : (q : ℚ) * (P : ℚ) = (P : ℚ) * (q : ℚ) := by ring
    rw [h2]
    exact h1

/-- C3: for a palette model with page size `P ≥ 1` whose `active_tiles`
evaluates to the filtered list `ts` (of `T` elements), the `page_count`
property is `⌈T / P⌉`. -/
theorem c3_page_count_is_ceil (m : PaletteModel) (ts : List TileEntry)
    (hP : 1 ≤ m.state.page_size) (hts : active_tiles m = some ts) :
    page_count m = some ⌈(ts.length : ℚ) / (m.state.page_size : ℚ)⌉ := by
  unfold page_count
  rw [hts]
  dsimp only
  by_cases h : ts.isEmpty
  · rw [List.isEmpty_iff.mp h]
    simp
  · have hP0 : ¬ m.state.page_size = 0 := by omega
    rw [if_neg h, if_neg hP0, fdiv_eq_ceil ts.length m.state.page_size hP]

/-- Witness for C3 at a concrete model: 4 tiles, page size 3, so
`page_count = some ⌈4/3⌉`. -/
theorem c3_witness :
    page_count samplePalette =
      some ⌈((sampleTileset.tiles.length : ℚ)) /
        ((samplePalette.state.page_size : ℚ))⌉ :=
  c3_page_count_is_ceil samplePalette sampleTileset.tiles (by decide) rfl

/-- Changing only `page_index` leaves `active_tiles` unchanged. -/
theorem active_tiles_withPageIndex (m : PaletteModel) (i : Int) :
    active_tiles (withPageIndex m i) = active_tiles m := rfl

/-- Changing only `page_index` leaves `page_count` unchanged. -/
theorem page_count_withPageIndex (m : PaletteModel) (i : Int) :
    page_count (withPageIndex m i) = page_count m := rfl

/-- C4: starting from a palette model whose `page_index` lies in
`[0, page_count - 1]`, any sequence of `next_page` / `prev_page` calls
keeps `page_index` inside `[0, page_count - 1]` (and leaves `page_count`
itself unchanged). -/
theorem c4_paging_in_range (ops : List PaletteOp) (m m' : PaletteModel)
    (pc : Int) (hpc : page_count m = some pc)
    (h0 : 0 ≤ m.state.page_index) (h1 : m.state.page_index ≤ pc - 1)
    (hrun : runOps m ops = some m') :
    page_count m' = some pc ∧
      0 ≤ m'.state.page_index ∧ m'.state.page_index ≤ pc - 1 := by
  induction ops generalizing m with
  | nil =>
      cases hrun
      exact ⟨hpc, h0, h1⟩
  | cons op rest ih =>
      cases op with
      | next =>
          unfold runOps at hrun
          unfold next_page at hrun
          rw [hpc] at hrun
          dsimp only at hrun
          by_cases hlt : m.state.page_index + 1 < pc
          · rw [if_pos hlt] at hrun
            refine ih (withPageIndex m (m.state.page_index + 1)) ?_ ?_ ?_ hrun
            · rw [page_count_withPageIndex]; exact hpc
            · show 0 ≤ m.state.page_index + 1
              omega
            · show m.state.page_index + 1 ≤ pc - 1
              omega
          · rw [if_neg hlt] at hrun
            exact ih m hpc h0 h1 hrun
      | prev =>
          unfold runOps at hrun
          unfold prev_page at hrun
          by_cases hpos : 0 < m.state.page_index
          · rw [if_pos hpos] at hrun
            refine ih (withPageIndex m (m.state.page_index - 1)) ?_ ?_ ?_ hrun
            · rw [page_count_withPageIndex]; exact hpc
            · show 0 ≤ m.state.page_index - 1
              omega
            · show m.state.page_index - 1 ≤ pc - 1
              omega
          · rw [if_neg hpos] at hrun
            exact ih m hpc h0 h1 hrun

/-- Witness for C4: a `next, next, prev` sequence on the sample palette
(page count 2) ends with `page_index` still inside `[0, 1]`. -/
theorem c4_witness :
    page_count (withPageIndex (withPageIndex samplePalette 1) 0) = some 2 ∧
      0 ≤ (withPageIndex (withPageIndex samplePalette 1) 0).state.page_index ∧
      (withPageIndex (withPageIndex samplePalette 1) 0).state.page_index
        ≤ 2 - 1 :=
  c4_paging_in_range [.next, .next, .prev] samplePalette
    (withPageIndex (withPageIndex samplePalette 1) 0) 2
    rfl (by decide) (by decide) rfl

/-- Pointwise content of `pupdate`: the last assignment among `items`
wins; keys not assigned keep their value from `d`. -/
theorem pupdate_apply (items : List (String × String)) (d : Props)
    (x : String) :
    pupdate d items x =
      match lastVal items x with
      | some v => some v
      | none => d x := by
  induction items generalizing d with
  | nil => rfl
  | cons kv rest ih =>
      show pupdate (pset d kv.1 kv.2) rest x = _
      rw [ih]
      cases h : lastVal rest x with
      | some v => simp [lastVal, h]
      | none =>
          by_cases hk : kv.1 = x
          · simp [lastVal, h, pset, hk]
          · simp [lastVal, h, pset, hk]

/-- Assigning the same items twice is the same as once. -/
theorem pupdate_idem (d : Props) (items : List (String × String)) :
    pupdate (pupdate d items) items = pupdate d items := by
  funext x
  rw [pupdate_apply, pupdate_apply]
  cases h : lastVal items x with
  | some v => rfl
  | none => rfl

/-- Assigning the same key/value twice is the same as once. -/
theorem pset_idem (d : Props) (k v : String) :
    pset (pset d k v) k v = pset d k v := by
  funext x
  unfold pset
  by_cases h : k = x
  · simp [h]
  · simp [h]

/-- A `pset` at one key, read back at another key. -/
theorem pset_other (d : Props) (k v x : String) (h : ¬ k = x) :
    pset d k v x = d x := by
  unfold pset
  rw [if_neg h]

/-- The metadata property overlay is idempotent on a tile's dict. -/
theorem propsOverlay_idem (meta : TilesetMeta) (tid : Int) (p : Props) :
    propsOverlay meta tid (propsOverlay meta tid p) = propsOverlay meta tid p := by
  unfold propsOverlay
  dsimp only
  cases hpf : propsFor meta.properties tid with
  | none =>
      cases hc : (catsFor meta.categories tid).isEmpty with
      | true => simp [hc]
      | false => simp [hc, pset_idem]
  | some items =>
      cases hc : (catsFor meta.categories tid).isEmpty with
      | true => simp [hc, pupdate_idem]
      | false =>
          simp only [hc, Bool.false_eq_true, if_false]
          funext x
          by_cases hx : ("category" : String) = x
          · rw [pset, pset, if_pos hx, if_pos hx]
          · rw [pset_other _ _ _ _ hx, pset_other _ _ _ _ hx,
              pupdate_apply, pupdate_apply]
            cases h : lastVal items x with
            | some v => rfl
            | none =>
                show pset (pupdate p items) "category"
                  (strJoin "," (catsFor meta.categories tid)) x = p x
                rw [pset_other _ _ _ _ hx, pupdate_apply, h]

/-- The per-tile overlay is idempotent. -/
theorem tile_apply_idem (meta : TilesetMeta) (t : TileEntry) :
    tile_apply meta (tile_apply meta t) = tile_apply meta t := by
  unfold tile_apply
  dsimp only
  rw [propsOverlay_idem]

/-- The per-tileset overlay is idempotent. -/
theorem tileset_apply_idem (meta : TilesetMeta) (ts : TilesetData) :
    tileset_apply meta (tileset_apply meta ts) = tileset_apply meta ts := by
  unfold tileset_apply
  dsimp only
  rw [List.map_map]
  congr 1
  apply List.map_congr_left
  intro t _
  exact tile_apply_idem meta t

/-- Unfolding one metadata entry of `apply_metadata`. -/
theorem apply_metadata_cons (cache : List (String × TilesetData))
    (q : String × TilesetMeta) (rest : Metadata) :
    apply_metadata cache (q :: rest) =
      apply_metadata
        (if cache.any (fun e => e.1 == q.1) then
          cache.map (fun e =>
            if e.1 == q.1 then (e.1, tileset_apply q.2 e.2) else e)
         else cache) rest := rfl

/-- Unfolding one metadata entry of `applySeq`. -/
theorem applySeq_cons (q : String × TilesetMeta) (rest : Metadata)
    (n : String) (ts : TilesetData) :
    applySeq (q :: rest) n ts =
      applySeq rest n (if q.1 == n then tileset_apply q.2 ts else ts) := rfl

/-- `applySeq` over metadata that never names `n` is the identity. -/
theorem applySeq_not_mem (md : Metadata) (n : String) (ts : TilesetData)
    (h : ∀ q ∈ md, q.1 ≠ n) : applySeq md n ts = ts := by
  induction md with
  | nil => rfl
  | cons q rest ih =>
      rw [applySeq_cons]
      rw [if_neg (by simp [h q (List.mem_cons_self q rest)])]
      exact ih (fun r hr => h r (List.mem_cons_of_mem q hr))

/-- `apply_metadata` acts entrywise on the cache: each entry is rewritten
by the sequence of metadata entries bearing its name. -/
theorem apply_metadata_eq_map (md : Metadata)
    (cache : List (String × TilesetData)) :
    apply_metadata cache md =
      cache.map (fun e => (e.1, applySeq md e.1 e.2)) := by
  induction md generalizing cache with
  | nil =>
      show cache = _
      simp [applySeq]
  | cons q rest ih =>
      rw [apply_metadata_cons]
      cases hany : cache.any (fun e => e.1 == q.1) with
      | true =>
          rw [if_pos rfl, ih, List.map_map]
          apply List.map_congr_left
          intro e _
          dsimp only [Function.comp]
          by_cases hq : e.1 = q.1
          · rw [if_pos (beq_iff_eq.mpr hq)]
            dsimp only
            rw [applySeq_cons, if_pos (beq_iff_eq.mpr hq.symm)]
          · have hq2 : ¬ q.1 = e.1 := fun h => hq h.symm
            rw [if_neg (by simp [hq]), applySeq_cons, if_neg (by simp [hq2])]
      | false =>
          rw [if_neg Bool.false_ne_true, ih]
          apply List.map_congr_left
          intro e he
          have hne : ¬ q.1 = e.1 := by
            intro h
            have := (List.any_eq_false.mp hany) e he
            simp [h] at this
          rw [applySeq_cons, if_neg (by simp [hne])]

/-- With distinct metadata tileset names (a Python dict's keys), the
per-entry sequence is idempotent. -/
theorem applySeq_idem (md : Metadata) (n : String) (ts : TilesetData)
    (hnd : (md.map Prod.fst).Nodup) :
    applySeq md n (applySeq md n ts) = applySeq md n ts := by
  induction md generalizing ts with
  | nil => rfl
  | cons q rest ih =>
      rw [List.map_cons] at hnd
      have hnd2 := List.nodup_cons.mp hnd
      by_cases hq : q.1 = n
      · have hnot : ∀ r ∈ rest, r.1 ≠ n := by
          intro r hr h
          apply hnd2.1
          have : r.1 ∈ List.map Prod.fst rest := List.mem_map_of_mem Prod.fst hr
          rw [h, ← hq] at this
          exact this
        rw [applySeq_cons, if_pos (beq_iff_eq.mpr hq),
          applySeq_not_mem rest n _ hnot,
          applySeq_cons, if_pos (beq_iff_eq.mpr hq),
          applySeq_not_mem rest n _ hnot,
          tileset_apply_idem]
      · rw [applySeq_cons q rest n ts, if_neg (by simp [hq]),
          applySeq_cons q rest n (applySeq rest n ts), if_neg (by simp [hq])]
        exact ih _ hnd2.2

/-- C6: `apply_metadata` is idempotent — applying the same metadata twice
in succession leaves the cache exactly as applying it once (the
hypothesis records that a metadata dict's keys are distinct). -/
theorem c6_apply_metadata_idem (cache : List (String × TilesetData))
    (md : Metadata) (hnd : (md.map Prod.fst).Nodup) :
    apply_metadata (apply_metadata cache md) md = apply_metadata cache md := by
  rw [apply_metadata_eq_map, apply_metadata_eq_map, List.map_map]
  apply List.map_congr_left
  intro e _
  dsimp only [Function.comp]
  rw [applySeq_idem md e.1 e.2 hnd]

/-- Witness for C6 on the sample cache and metadata. -/
theorem c6_witness :
    apply_metadata (apply_metadata [("terrain", sampleTileset)] sampleMetadata)
        sampleMetadata =
      apply_metadata [("terrain", sampleTileset)] sampleMetadata :=
  c6_apply_metadata_idem [("terrain", sampleTileset)] sampleMetadata
    (by decide)

/-- `tileFrame` is reflexive. -/
theorem tileFrame_refl (t : TileEntry) : tileFrame t t :=
  ⟨rfl, rfl, rfl, rfl⟩

/-- `tileFrame` is transitive. -/
theorem tileFrame_trans (t u v : TileEntry) (h1 : tileFrame t u)
    (h2 : tileFrame u v) : tileFrame t v :=
  ⟨h2.1.trans h1.1, h2.2.1.trans h1.2.1, h2.2.2.1.trans h1.2.2.1,
    h2.2.2.2.trans h1.2.2.2⟩

/-- `List.Forall₂` chains along a transitive relation. -/
theorem forallTwoTrans {R : α → α → Prop}
    (hR : ∀ a b c : α, R a b → R b c → R a c) :
    ∀ {l1 l2 l3 : List α}, List.Forall₂ R l1 l2 → List.Forall₂ R l2 l3 →
      List.Forall₂ R l1 l3 := by
  intro l1 l2 l3 h12 h23
  induction h12 generalizing l3 with
  | nil => cases h23; exact .nil
  | cons hab htail ih =>
      cases h23 with
      | cons hbc htail2 => exact .cons (hR _ _ _ hab hbc) (ih htail2)

/-- The per-tile overlay only touches `properties`. -/
theorem tile_apply_frame (meta : TilesetMeta) (t : TileEntry) :
    tileFrame t (tile_apply meta t) :=
  ⟨rfl, rfl, rfl, rfl⟩

/-- The per-tileset overlay leaves `info` unchanged. -/
theorem tileset_apply_info (meta : TilesetMeta) (ts : TilesetData) :
    (tileset_apply meta ts).info = ts.info := rfl

/-- `applySeq` leaves `info` unchanged. -/
theorem applySeq_info (md : Metadata) (n : String) (ts : TilesetData) :
    (applySeq md n ts).info = ts.info := by
  induction md generalizing ts with
  | nil => rfl
  | cons q rest ih =>
      rw [applySeq_cons]
      by_cases hq : (q.1 == n) = true
      · rw [if_pos hq, ih, tileset_apply_info]
      · rw [if_neg hq, ih]

/-- `applySeq` only touches the `properties` dicts of the tiles. -/
theorem applySeq_tiles_frame (md : Metadata) (n : String) (ts : TilesetData) :
    List.Forall₂ tileFrame ts.tiles (applySeq md n ts).tiles := by
  induction md generalizing ts with
  | nil => exact List.forall₂_same.mpr (fun t _ => tileFrame_refl t)
  | cons q rest ih =>
      rw [applySeq_cons]
      by_cases hq : (q.1 == n) = true
      · rw [if_pos hq]
        refine @forallTwoTrans TileEntry tileFrame tileFrame_trans ts.tiles
          (ts.tiles.map (tile_apply q.2)) _ ?_ (ih (tileset_apply q.2 ts))
        show List.Forall₂ tileFrame ts.tiles (ts.tiles.map (tile_apply q.2))
        rw [List.forall₂_map_right_iff]
        exact List.forall₂_same.mpr (fun t _ => tile_apply_frame q.2 t)
      · rw [if_neg hq]
        exact ih _

/-- C10: `apply_metadata` preserves every cache entry's name and
`TilesetInfo`, changes no tile field other than `properties` (so
`tileset_name`, `local_id`, `surface` and `is_animated` are unchanged),
and leaves every tileset whose name does not appear in the metadata
entirely unchanged. -/
theorem c10_apply_metadata_frame (cache : List (String × TilesetData))
    (md : Metadata) :
    List.Forall₂
      (fun e e' : String × TilesetData =>
        e'.1 = e.1 ∧ e'.2.info = e.2.info ∧
        List.Forall₂ tileFrame e.2.tiles e'.2.tiles ∧
        ((∀ q ∈ md, q.1 ≠ e.1) → e' = e))
      cache (apply_metadata cache md) := by
  rw [apply_metadata_eq_map, List.forall₂_map_right_iff]
  refine List.forall₂_same.mpr (fun e _ => ?_)
  refine ⟨rfl, applySeq_info md e.1 e.2, applySeq_tiles_frame md e.1 e.2,
    fun h => ?_⟩
  rw [applySeq_not_mem md e.1 e.2 h]

/-- Witness for C10 on the sample cache and metadata. -/
theorem c10_witness :
    List.Forall₂
      (fun e e' : String × TilesetData =>
        e'.1 = e.1 ∧ e'.2.info = e.2.info ∧
        List.Forall₂ tileFrame e.2.tiles e'.2.tiles ∧
        ((∀ q ∈ sampleMetadata, q.1 ≠ e.1) → e' = e))
      [("terrain", sampleTileset)]
      (apply_metadata [("terrain", sampleTileset)] sampleMetadata) :=
  c10_apply_metadata_frame [("terrain", sampleTileset)] sampleMetadata

/-- `list(range(a, b + 1))` contains exactly the integers of `[a, b]`. -/
theorem mem_rangeList (a b tid : Int) :
    tid ∈ rangeList a b ↔ a ≤ tid ∧ tid ≤ b := by
  unfold rangeList
  simp only [List.mem_map, List.mem_range]
  constructor
  · rintro ⟨n, hn, rfl⟩
    omega
  · intro h
    exact ⟨(tid - a).toNat, by omega, by omega⟩

/-- A single category `c` over the single range `[a, b]` yields exactly
`[c]` as the sorted category set of an id inside the range. -/
theorem catsFor_single_in (c : String) (a b tid : Int) (hc : ¬ c = "")
    (h : a ≤ tid ∧ tid ≤ b) :
    catsFor [⟨c, [IdEntry.range a b]⟩] tid = [c] := by
  have hmem : tid ∈ expand_ids (IdEntry.range a b) := by
    simpa [expand_ids] using (mem_rangeList a b tid).mpr h
  have hcont : (expand_ids (IdEntry.range a b)).contains tid = true :=
    List.elem_iff.mpr hmem
  have hcb : (c == "") = false := beq_eq_false_iff_ne.mpr hc
  unfold catsFor
  have hpred : (!((⟨c, [IdEntry.range a b]⟩ : CategoryMeta).name == "") &&
      (⟨c, [IdEntry.range a b]⟩ : CategoryMeta).ids.any
        (fun e => (expand_ids e).contains tid)) = true := by
    show (!(c == "") && [IdEntry.range a b].any
      (fun e => (expand_ids e).contains tid)) = true
    rw [hcb]
    simp [hcont, hmem]
  rw [@List.filter_cons_of_pos CategoryMeta
    (fun cm => !(cm.name == "") &&
      cm.ids.any (fun e => (expand_ids e).contains tid))
    ⟨c, [IdEntry.range a b]⟩ [] hpred]
  rfl

/-- A single category over the single range `[a, b]` yields the empty
category set for an id outside the range. -/
theorem catsFor_single_out (c : String) (a b tid : Int)
    (h : ¬ (a ≤ tid ∧ tid ≤ b)) :
    catsFor [⟨c, [IdEntry.range a b]⟩] tid = [] := by
  have hmem : tid ∉ expand_ids (IdEntry.range a b) := by
    simpa [expand_ids] using fun hx => h ((mem_rangeList a b tid).mp hx)
  have hcont : (expand_ids (IdEntry.range a b)).contains tid = false := by
    cases hx : (expand_ids (IdEntry.range a b)).contains tid with
    | false => rfl
    | true => exact absurd (List.elem_iff.mp hx) hmem
  unfold catsFor
  have hpred : (!((⟨c, [IdEntry.range a b]⟩ : CategoryMeta).name == "") &&
      (⟨c, [IdEntry.range a b]⟩ : CategoryMeta).ids.any
        (fun e => (expand_ids e).contains tid)) = false := by
    show (!(c == "") && [IdEntry.range a b].any
      (fun e => (expand_ids e).contains tid)) = false
    simp [hcont, hmem]
  rw [@List.filter_cons_of_neg CategoryMeta
    (fun cm => !(cm.name == "") &&
      cm.ids.any (fun e => (expand_ids e).contains tid))
    ⟨c, [IdEntry.range a b]⟩ []
    (by simp only [hpred]; exact Bool.false_ne_true)]
  rfl

/-- C5 (amended: the category name must be non-empty, since
`apply_metadata` skips categories with a falsy name): applying metadata
that maps tileset `nm` to the single category `c ≠ ""` with inclusive id
range `[a, b]` tags exactly the cached tiles of `nm` whose
`a ≤ local_id ≤ b` with `"category" = c`, leaves every other tile of `nm`
untouched, and leaves every other cache entry untouched. -/
theorem c5_amended_category_range (cache : List (String × TilesetData))
    (nm c : String) (a b : Int) (hc : ¬ c = "") :
    List.Forall₂
      (fun e e' : String × TilesetData =>
        e'.1 = e.1 ∧
        (e.1 ≠ nm → e' = e) ∧
        (e.1 = nm →
          List.Forall₂
            (fun t t' : TileEntry =>
              t'.local_id = t.local_id ∧
              (a ≤ t.local_id ∧ t.local_id ≤ b →
                t'.properties "category" = some c) ∧
              (¬ (a ≤ t.local_id ∧ t.local_id ≤ b) → t' = t))
            e.2.tiles e'.2.tiles))
      cache
      (apply_metadata cache
        [(nm, ⟨[⟨c, [IdEntry.range a b]⟩], []⟩)]) := by
  rw [apply_metadata_eq_map, List.forall₂_map_right_iff]
  refine List.forall₂_same.mpr (fun e _ => ⟨rfl, fun hne => ?_, fun heq => ?_⟩)
  · rw [applySeq_not_mem _ _ _ (by simpa using fun h => (hne h.symm).elim)]
  · have : applySeq [(nm, ⟨[⟨c, [IdEntry.range a b]⟩], []⟩)] e.1 e.2 =
        tileset_apply ⟨[⟨c, [IdEntry.range a b]⟩], []⟩ e.2 := by
      rw [applySeq_cons, if_pos (beq_iff_eq.mpr heq.symm)]
      rfl
    rw [this]
    show List.Forall₂ _ e.2.tiles (e.2.tiles.map _)
    rw [List.forall₂_map_right_iff]
    refine List.forall₂_same.mpr (fun t _ => ⟨rfl, fun hin => ?_, fun hout => ?_⟩)
    · show propsOverlay ⟨[⟨c, [IdEntry.range a b]⟩], []⟩ t.local_id
        t.properties "category" = some c
      unfold propsOverlay
      dsimp only
      rw [catsFor_single_in c a b t.local_id hc hin]
      show pset t.properties "category" (strJoin "," [c]) "category" = some c
      rw [pset, if_pos rfl]
      rfl
    · show ({ t with properties := propsOverlay _ t.local_id t.properties }
          : TileEntry) = t
      have : propsOverlay ⟨[⟨c, [IdEntry.range a b]⟩], []⟩ t.local_id
          t.properties = t.properties := by
        unfold propsOverlay
        dsimp only
        rw [catsFor_single_out c a b t.local_id hout]
        rfl
      rw [this]

/-- Witness for C5 (amended) on the sample cache, category `ground`,
range `[5, 8]`. -/
theorem c5_witness :
    List.Forall₂
      (fun e e' : String × TilesetData =>
        e'.1 = e.1 ∧
        (e.1 ≠ "terrain" → e' = e) ∧
        (e.1 = "terrain" →
          List.Forall₂
            (fun t t' : TileEntry =>
              t'.local_id = t.local_id ∧
              (5 ≤ t.local_id ∧ t.local_id ≤ 8 →
                t'.properties "category" = some "ground") ∧
              (¬ (5 ≤ t.local_id ∧ t.local_id ≤ 8) → t' = t))
            e.2.tiles e'.2.tiles))
      [("terrain", sampleTileset)]
      (apply_metadata [("terrain", sampleTileset)]
        [("terrain", ⟨[⟨"ground", [IdEntry.range 5 8]⟩], []⟩)]) :=
  c5_amended_category_range [("terrain", sampleTileset)] "terrain" "ground"
    5 8 (by decide)

/-- Counterexample for C5 as stated: with the (falsy) empty category name
`c = ""`, no tile gets tagged — tile 5 lies in the range `[5, 8]` yet its
`"category"` property stays absent. -/
theorem c5_counterexample :
    ((apply_metadata [("terrain", sampleTileset)]
        [("terrain", ⟨[⟨"", [IdEntry.range 5 8]⟩], []⟩)]).map
      (fun q => q.2.tiles.map (fun t => (t.local_id, t.properties "category"))))
      = [[(4, none), (5, none), (8, none), (9, none)]] := by
  rfl

/-- Looking up the key just set by `dictSet` yields the new binding. -/
theorem find?_dictSet_self (l : List (String × α)) (k : String) (v : α) :
    (dictSet l k v).find? (fun p => p.1 == k) = some (k, v) := by
  unfold dictSet
  cases hany : l.any (fun p => p.1 == k) with
  | true =>
      rw [if_pos rfl]
      induction l with
      | nil => simp at hany
      | cons q rest ih =>
          cases hq : (q.1 == k) with
          | true =>
              rw [List.map_cons, if_pos hq]
              exact List.find?_cons_of_pos _ (by simp)
          | false =>
              rw [List.map_cons, if_neg (by simp [hq])]
              rw [List.find?_cons_of_neg _ (by simp [hq])]
              exact ih (by simpa [List.any_cons, hq] using hany)
  | false =>
      rw [if_neg Bool.false_ne_true, List.find?_append]
      have hnone : l.find? (fun p => p.1 == k) = none :=
        List.find?_eq_none.mpr (fun x hx => by
          simpa using (List.any_eq_false.mp hany) x hx)
      rw [hnone]
      simp

/-- Looking up any other key after `dictSet` is unchanged. -/
theorem find?_dictSet_other (l : List (String × α)) (k : String) (v : α)
    (x : String) (hx : ¬ x = k) :
    (dictSet l k v).find? (fun p => p.1 == x) =
      l.find? (fun p => p.1 == x) := by
  have hkx : ¬ k = x := fun h => hx h.symm
  unfold dictSet
  cases hany : l.any (fun p => p.1 == k) with
  | true =>
      rw [if_pos rfl]
      clear hany
      induction l with
      | nil => rfl
      | cons q rest ih =>
          cases hq : (q.1 == k) with
          | true =>
              rw [List.map_cons, if_pos hq]
              have hq' : q.1 = k := beq_iff_eq.mp hq
              rw [@List.find?_cons_of_neg _ (fun p => p.1 == x) (k, v) _
                  (by simp [hkx]),
                @List.find?_cons_of_neg _ (fun p => p.1 == x) q rest
                  (by simp [hq', hkx])]
              exact ih
          | false =>
              rw [List.map_cons, if_neg (by simp [hq])]
              cases hqx : (q.1 == x) with
              | true =>
                  rw [@List.find?_cons_of_pos _ (fun p => p.1 == x) q _ hqx,
                    @List.find?_cons_of_pos _ (fun p => p.1 == x) q rest hqx]
              | false =>
                  rw [@List.find?_cons_of_neg _ (fun p => p.1 == x) q _
                      (by simp [hqx]),
                    @List.find?_cons_of_neg _ (fun p => p.1 == x) q rest
                      (by simp [hqx])]
                  exact ih
  | false =>
      rw [if_neg Bool.false_ne_true, List.find?_append]
      have : List.find? (fun p => p.1 == x) [(k, v)] = none := by
        simp [hkx]
      rw [this]
      simp

/-- Reading back the attribute just set. -/
theorem attr_attrsSet_self (t : String) (attrs : List (String × String))
    (ch : List XmlElement) (k v : String) :
    attr (.mk t (attrsSet attrs k v) ch) k = some v := by
  unfold attr attrsSet
  show ((dictSet attrs k v).find? (fun p => p.1 == k)).map (fun p => p.2)
    = some v
  rw [find?_dictSet_self]
  rfl

/-- Reading another attribute after a set is unchanged. -/
theorem attr_attrsSet_other (t : String) (attrs : List (String × String))
    (ch : List XmlElement) (k v x : String) (hx : ¬ x = k) :
    attr (.mk t (attrsSet attrs k v) ch) x = attr (.mk t attrs ch) x := by
  unfold attr attrsSet
  show ((dictSet attrs k v).find? (fun p => p.1 == x)).map (fun p => p.2) = _
  rw [find?_dictSet_other attrs k v x hx]
  rfl

/-- The cons equation of `lastNamedValue`. -/
theorem lastNamedValue_cons (e : XmlElement) (rest : List XmlElement)
    (k : String) :
    lastNamedValue (e :: rest) k =
      match lastNamedValue rest k with
      | some v => some v
      | none =>
          match attr e "name" with
          | some n => if n = k then some ((attr e "value").getD "") else none
          | none => none := rfl

/-- A list with no element named `k` contributes nothing at `k`. -/
theorem lastNamedValue_eq_none (l : List XmlElement) (k : String)
    (h : ∀ e ∈ l, ¬ attr e "name" = some k) :
    lastNamedValue l k = none := by
  induction l with
  | nil => rfl
  | cons e rest ih =>
      rw [lastNamedValue_cons, ih (fun x hx => h x (List.mem_cons_of_mem e hx))]
      cases ha : attr e "name" with
      | none => rfl
      | some n =>
          have hth := h e (List.mem_cons_self e rest)
          rw [ha] at hth
          show (if n = k then some ((attr e "value").getD "") else none) = none
          rw [if_neg (fun hn => hth (by rw [hn]))]

/-- `lastNamedValue` over an append: the right part wins. -/
theorem lastNamedValue_append (l1 l2 : List XmlElement) (k : String) :
    lastNamedValue (l1 ++ l2) k =
      match lastNamedValue l2 k with
      | some v => some v
      | none => lastNamedValue l1 k := by
  induction l1 with
  | nil =>
      show lastNamedValue l2 k = _
      cases h : lastNamedValue l2 k with
      | some v => rfl
      | none => rfl
  | cons e rest ih =>
      rw [List.cons_append, lastNamedValue_cons, ih, lastNamedValue_cons]
      cases h2 : lastNamedValue l2 k with
      | some v => rfl
      | none => cases h1 : lastNamedValue rest k <;> rfl

/-- Pointwise value of the inner property-element fold of the map
loader. -/
theorem pytmx_fold_inner (prs : List XmlElement) (acc : Props) (k : String) :
    (prs.foldl (fun acc2 pr =>
      match attr pr "name" with
      | some n => pset acc2 n ((attr pr "value").getD "")
      | none => acc2) acc) k =
      match lastNamedValue prs k with
      | some v => some v
      | none => acc k := by
  induction prs generalizing acc with
  | nil => rfl
  | cons e rest ih =>
      rw [List.foldl_cons, ih]
      cases h : lastNamedValue rest k with
      | some v => simp [lastNamedValue, h]
      | none =>
          rw [lastNamedValue_cons, h]
          cases ha : attr e "name" with
          | none => rfl
          | some n =>
              by_cases hn : n = k
              · subst hn
                simp [pset]
              · simp [hn, pset]

/-- Pointwise value of the outer properties-element fold of the map
loader. -/
theorem pytmx_fold_outer (pes : List XmlElement) (acc : Props) (k : String) :
    (pes.foldl
      (fun acc pe =>
        (findAll pe "property").foldl
          (fun acc2 pr =>
            match attr pr "name" with
            | some n => pset acc2 n ((attr pr "value").getD "")
            | none => acc2)
          acc)
      acc) k =
      match lastNamedValue
        ((pes.map (fun pe => findAll pe "property")).flatten) k with
      | some v => some v
      | none => acc k := by
  induction pes generalizing acc with
  | nil => rfl
  | cons pe rest ih =>
      rw [List.foldl_cons, ih, List.map_cons, List.flatten_cons,
        lastNamedValue_append]
      cases h2 : lastNamedValue
          ((rest.map (fun pe => findAll pe "property")).flatten) k with
      | some v => rfl
      | none => rw [pytmx_fold_inner]

/-- The map loader's value at `k` is the last `<property name=k>` among
all property elements. -/
theorem pytmx_apply (root : XmlElement) (k : String) :
    pytmx_map_properties root k =
      match lastNamedValue (allMapProps root) k with
      | some v => some v
      | none => none := by
  unfold pytmx_map_properties allMapProps
  rw [pytmx_fold_outer]
  cases h : lastNamedValue
      (((findAll root "properties").map (fun pe => findAll pe "property")).flatten)
      k with
  | some v => rfl
  | none => rfl

/-- A `propNamed` match fixes the tag and the name attribute. -/
theorem propNamed_true (k : String) (e : XmlElement)
    (h : propNamed k e = true) :
    e.tag = "property" ∧ attr e "name" = some k := by
  unfold propNamed at h
  simp only [Bool.and_eq_true, beq_iff_eq] at h
  exact h

/-- A property-tagged element failing `propNamed` is not named `k`. -/
theorem propNamed_false (k : String) (e : XmlElement)
    (htag : e.tag = "property") (h : propNamed k e = false) :
    ¬ attr e "name" = some k := by
  unfold propNamed at h
  intro hname
  rw [htag, hname] at h
  simp at h

/-- `setPropertyInProperties` keeps the element's tag. -/
theorem setPropertyInProperties_tag (pe : XmlElement) (k v : String) :
    (setPropertyInProperties pe k v).tag = pe.tag := by
  unfold setPropertyInProperties
  by_cases h : pe.children.any (propNamed k) = true
  · rw [if_pos h]
    rfl
  · rw [if_neg h]
    rfl

/-- Rebuilding an element from its fields is the identity. -/
theorem XmlElement.eta (e : XmlElement) :
    XmlElement.mk e.tag e.attrs e.children = e := by
  cases e
  rfl

/-- The updated first matching `<property>` dominates the map loader's
read at `k`: after updating the first `propNamed k` element of `l` (which
has at most one, and at least one), the last property named `k` among the
property-tagged elements has value `v`. -/
theorem lastNamedValue_updateFirst (l : List XmlElement) (k v : String)
    (h1 : (l.filter (propNamed k)).length ≤ 1)
    (hany : l.any (propNamed k) = true) :
    lastNamedValue
      ((updateFirst (propNamed k)
        (fun pr => .mk pr.tag (attrsSet pr.attrs "value" v) pr.children)
        l).filter (fun c => c.tag == "property")) k = some v := by
  induction l with
  | nil => simp at hany
  | cons e rest ih =>
      cases he : propNamed k e with
      | true =>
          have hprops := propNamed_true k e he
          unfold updateFirst
          rw [if_pos he]
          have htag2 : ((XmlElement.mk e.tag (attrsSet e.attrs "value" v)
              e.children).tag == "property") = true := by
            show (e.tag == "property") = true
            simp [hprops.1]
          rw [@List.filter_cons_of_pos XmlElement
            (fun c => c.tag == "property")
            (XmlElement.mk e.tag (attrsSet e.attrs "value" v) e.children)
            rest htag2]
          have hrestnone : lastNamedValue
              (rest.filter (fun c => c.tag == "property")) k = none := by
            apply lastNamedValue_eq_none
            intro x hx
            have hxtag : (x.tag == "property") = true :=
              (List.mem_filter.mp hx).2
            have hxmem : x ∈ rest := (List.mem_filter.mp hx).1
            have hfr : rest.filter (propNamed k) = [] := by
              rw [List.filter_cons_of_pos he] at h1
              cases hfe : rest.filter (propNamed k) with
              | nil => rfl
              | cons a as =>
                  rw [hfe] at h1
                  simp at h1
            have hxp : propNamed k x = false := by
              cases hxp : propNamed k x with
              | false => rfl
              | true =>
                  have : x ∈ rest.filter (propNamed k) :=
                    List.mem_filter.mpr ⟨hxmem, hxp⟩
                  rw [hfr] at this
                  simp at this
            exact propNamed_false k x (by simpa using hxtag) hxp
          rw [lastNamedValue_cons, hrestnone]
          have hname : attr (XmlElement.mk e.tag (attrsSet e.attrs "value" v)
              e.children) "name" = some k := by
            rw [attr_attrsSet_other e.tag e.attrs e.children "value" v "name"
              (by decide)]
            show attr (XmlElement.mk e.tag e.attrs e.children) "name" = some k
            rw [XmlElement.eta]
            exact hprops.2
          rw [hname, attr_attrsSet_self e.tag e.attrs e.children "value" v]
          simp
      | false =>
          unfold updateFirst
          rw [if_neg (by simp [he])]
          have h1r : (rest.filter (propNamed k)).length ≤ 1 := by
            rw [@List.filter_cons_of_neg XmlElement (propNamed k) e rest
              (by simp [he])] at h1
            exact h1
          have hanyr : rest.any (propNamed k) = true := by
            rw [List.any_cons, he] at hany
            simpa using hany
          cases htag : (e.tag == "property") with
          | true =>
              rw [@List.filter_cons_of_pos XmlElement
                  (fun c => c.tag == "property") e
                  (updateFirst (propNamed k)
                    (fun pr => XmlElement.mk pr.tag
                      (attrsSet pr.attrs "value" v) pr.children) rest) htag,
                lastNamedValue_cons, ih h1r hanyr]
          | false =>
              rw [@List.filter_cons_of_neg XmlElement
                  (fun c => c.tag == "property") e
                  (updateFirst (propNamed k)
                    (fun pr => XmlElement.mk pr.tag
                      (attrsSet pr.attrs "value" v) pr.children) rest)
                  (by simp [htag])]
              exact ih h1r hanyr

/-- When the first match exists and the filter keeps at most one element,
the filter is exactly that first match. -/
theorem filter_single_of_find? (p : α → Bool) (l : List α) (x : α)
    (hf : l.find? p = some x) (hlen : (l.filter p).length ≤ 1) :
    l.filter p = [x] := by
  induction l with
  | nil => simp at hf
  | cons y ys ih =>
      cases hy : p y with
      | true =>
          have hx : y = x := by
            rw [List.find?_cons_of_pos _ hy] at hf
            exact Option.some.inj hf
          subst hx
          rw [@List.filter_cons_of_pos α p y ys hy] at hlen ⊢
          have hnil : List.filter p ys = [] := by
            cases hfe : List.filter p ys with
            | nil => rfl
            | cons a as =>
                rw [hfe] at hlen
                simp at hlen
          rw [hnil]
      | false =>
          rw [List.find?_cons_of_neg _ (by simp [hy])] at hf
          rw [@List.filter_cons_of_neg α p y ys (by simp [hy])] at hlen ⊢
          exact ih hf hlen

/-- Filtering after `updateFirst` on the same predicate rewrites the
single kept element, provided the image still satisfies the predicate. -/
theorem filter_updateFirst (p : α → Bool) (f : α → α) (l : List α) (x : α)
    (hx : l.filter p = [x]) (hp : p (f x) = true) :
    (updateFirst p f l).filter p = [f x] := by
  induction l with
  | nil => simp at hx
  | cons y ys ih =>
      cases hy : p y with
      | true =>
          rw [@List.filter_cons_of_pos α p y ys hy] at hx
          injection hx with hyx hnil
          subst hyx
          unfold updateFirst
          rw [if_pos hy, @List.filter_cons_of_pos α p (f y)
            (ys) hp, hnil]
      | false =>
          rw [@List.filter_cons_of_neg α p y ys (by simp [hy])] at hx
          unfold updateFirst
          rw [if_neg (by simp [hy]),
            @List.filter_cons_of_neg α p y (updateFirst p f ys)
              (by simp [hy])]
          exact ih hx

/-- The freshly created `<property name=k value=v>` element reads back
value `v` at `k`. -/
theorem lastNamedValue_newProp (k v : String) :
    lastNamedValue [newPropertyElement k v] k = some v := by
  rw [lastNamedValue_cons]
  have hname : attr (newPropertyElement k v) "name" = some k := rfl
  have hvalue : attr (newPropertyElement k v) "value" = some v := rfl
  have h0 : lastNamedValue ([] : List XmlElement) k = none := rfl
  rw [hname, hvalue, h0]
  simp

/-- C1 (amended: the root must have at most one `<properties>` element,
holding at most one `<property>` named `k` — TMX property tables are
name-keyed dicts): after `set_property(root, k, v)`, writing the tree and
reloading it with the game's map loader yields a map whose map-level
property `k` has value `v`; `set_property` replaces the value of the
first existing `<property>` named `k` and otherwise appends a fresh
`<property name=k value=v>` under the root's `<properties>` element. -/
theorem c1_round_trip_property (root : XmlElement) (k v : String)
    (h1 : (findAll root "properties").length ≤ 1)
    (h2 : ∀ pe, findChild root "properties" = some pe →
      (pe.children.filter (propNamed k)).length ≤ 1) :
    round_trip_property root k v = some v := by
  unfold round_trip_property write_reload
  rw [pytmx_apply]
  suffices h : lastNamedValue (allMapProps (set_property root k v)) k = some v by
    rw [h]
  unfold set_property
  cases hf : findChild root "properties" with
  | none =>
      show lastNamedValue (allMapProps (.mk root.tag root.attrs
        (root.children ++
          [.mk "properties" [] [newPropertyElement k v]]))) k = some v
      unfold allMapProps findAll
      show lastNamedValue ((((root.children ++
        [XmlElement.mk "properties" [] [newPropertyElement k v]]).filter
          (fun c => c.tag == "properties")).map
            (fun pe => pe.children.filter (fun c => c.tag == "property"))).flatten)
        k = some v
      rw [List.filter_append]
      have hnil : root.children.filter (fun c => c.tag == "properties") = [] := by
        apply List.filter_eq_nil_iff.mpr
        intro a ha
        unfold findChild at hf
        exact List.find?_eq_none.mp hf a ha
      rw [hnil]
      show lastNamedValue [newPropertyElement k v] k = some v
      exact lastNamedValue_newProp k v
  | some pe =>
      have hpetag : (pe.tag == "properties") = true := by
        unfold findChild at hf
        exact @List.find?_some XmlElement (fun c => c.tag == "properties")
          pe root.children hf
      have hfil : root.children.filter (fun c => c.tag == "properties") = [pe] := by
        apply filter_single_of_find? _ _ _ _ h1
        unfold findChild at hf
        exact hf
      have hftag : ((setPropertyInProperties pe k v).tag == "properties") = true := by
        rw [setPropertyInProperties_tag]
        exact hpetag
      have hfil2 : ((updateFirst (fun c => c.tag == "properties")
          (fun q => setPropertyInProperties q k v)
          root.children).filter (fun c => c.tag == "properties")) =
          [setPropertyInProperties pe k v] :=
        filter_updateFirst _ _ _ _ hfil hftag
      show lastNamedValue (allMapProps (.mk root.tag root.attrs
        (updateFirst (fun c => c.tag == "properties")
          (fun q => setPropertyInProperties q k v) root.children))) k = some v
      unfold allMapProps findAll
      show lastNamedValue ((((updateFirst (fun c => c.tag == "properties")
        (fun q => setPropertyInProperties q k v) root.children).filter
          (fun c => c.tag == "properties")).map
            (fun q => q.children.filter (fun c => c.tag == "property"))).flatten)
        k = some v
      rw [hfil2, List.map_cons, List.map_nil, List.flatten_cons,
        List.flatten_nil, List.append_nil]
      unfold setPropertyInProperties
      cases hany : pe.children.any (propNamed k) with
      | true =>
          rw [if_pos rfl]
          show lastNamedValue ((updateFirst (propNamed k)
            (fun pr => XmlElement.mk pr.tag (attrsSet pr.attrs "value" v)
              pr.children) pe.children).filter
                (fun c => c.tag == "property")) k = some v
          exact lastNamedValue_updateFirst pe.children k v (h2 pe hf) hany
      | false =>
          rw [if_neg Bool.false_ne_true]
          show lastNamedValue ((pe.children ++
            [newPropertyElement k v]).filter
              (fun c => c.tag == "property")) k = some v
          rw [List.filter_append]
          have hnew : [newPropertyElement k v].filter
              (fun c => c.tag == "property") = [newPropertyElement k v] := rfl
          rw [hnew, lastNamedValue_append, lastNamedValue_newProp]

/-- Witness for C1 on a concrete map root that already holds an `a`
property: setting `b = 7` and reloading reads back `7`. -/
theorem c1_witness :
    round_trip_property
      (.mk "map" []
        [.mk "properties" [] [.mk "property" [("name", "a"), ("value", "1")] []]])
      "b" "7" = some "7" :=
  c1_round_trip_property
    (.mk "map" []
      [.mk "properties" [] [.mk "property" [("name", "a"), ("value", "1")] []]])
    "b" "7" (by decide)
    (fun pe hpe => by
      cases Option.some.inj hpe
      decide)

/-- Counterexample for C1 as stated: on a root whose `<properties>`
element holds two `<property>` elements named `k` (values `old1`, `old2`),
`set_property` updates only the first, and the reloaded map reports the
surviving later value `old2`, not the written value `v`. -/
theorem c1_counterexample :
    round_trip_property dupPropsRoot "k" "v" = some "old2" ∧
      round_trip_property dupPropsRoot "k" "v" ≠ some "v" := by
  constructor
  · rfl
  · intro h
    rw [show round_trip_property dupPropsRoot "k" "v" = some "old2" from rfl]
      at h
    simp at h

/-- Reading back the key just assigned by `pyDictSet`. -/
theorem pyLookup_dictSet_self (d : List (String × PyValue)) (k : String)
    (v : PyValue) : pyLookup (pyDictSet d k v) k = some v := by
  unfold pyLookup pyDictSet
  rw [find?_dictSet_self]
  rfl

/-- Reading any other key after `pyDictSet` is unchanged. -/
theorem pyLookup_dictSet_other (d : List (String × PyValue)) (k : String)
    (v : PyValue) (x : String) (hx : ¬ x = k) :
    pyLookup (pyDictSet d k v) x = pyLookup d x := by
  unfold pyLookup pyDictSet
  rw [find?_dictSet_other d k v x hx]

/-- `setdefault` leaves a present binding and installs the default
otherwise. -/
theorem pyLookup_setdefault_self (d : List (String × PyValue)) (k : String)
    (v : PyValue) :
    pyLookup (pySetdefault d k v) k = some ((pyLookup d k).getD v) := by
  cases h : pyLookup d k with
  | some w =>
      unfold pySetdefault
      rw [h]
      simp [h]
  | none =>
      unfold pySetdefault
      rw [h]
      have hf : d.find? (fun q => q.1 == k) = none := by
        unfold pyLookup at h
        exact Option.map_eq_none.mp h
      simp only [Option.isSome_none, Bool.false_eq_true, if_false]
      unfold pyLookup
      rw [List.find?_append, hf]
      simp

/-- `setdefault` does not touch other keys. -/
theorem pyLookup_setdefault_other (d : List (String × PyValue)) (k : String)
    (v : PyValue) (x : String) (hx : ¬ x = k) :
    pyLookup (pySetdefault d k v) x = pyLookup d x := by
  unfold pySetdefault
  cases h : (pyLookup d k).isSome with
  | true => rw [if_pos rfl]
  | false =>
      rw [if_neg Bool.false_ne_true]
      unfold pyLookup
      rw [List.find?_append]
      have hkx : ¬ k = x := fun hh => hx hh.symm
      have : List.find? (fun q => q.1 == x) [(k, v)] = none := by
        simp [hkx]
      rw [this]
      simp

/-- `constitution` after the numeric defaults. -/
theorem classDefaults_constitution (d : List (String × PyValue)) :
    pyLookup (classDefaults d) "constitution" =
      some ((pyLookup d "constitution").getD (.int 0)) := by
  unfold classDefaults
  rw [pyLookup_setdefault_other _ _ _ _ (by decide), pyLookup_setdefault_self]

/-- `move` after the numeric defaults. -/
theorem classDefaults_move (d : List (String × PyValue)) :
    pyLookup (classDefaults d) "move" =
      some ((pyLookup d "move").getD (.int 0)) := by
  unfold classDefaults
  rw [pyLookup_setdefault_self, pyLookup_setdefault_other _ _ _ _ (by decide)]

/-- Other keys are untouched by the numeric defaults. -/
theorem classDefaults_other (d : List (String × PyValue)) (x : String)
    (hx1 : ¬ x = "constitution") (hx2 : ¬ x = "move") :
    pyLookup (classDefaults d) x = pyLookup d x := by
  unfold classDefaults
  rw [pyLookup_setdefault_other _ _ _ _ hx2, pyLookup_setdefault_other _ _ _ _ hx1]

/-- `hp` after the stats defaults. -/
theorem statsDefaults_hp (st : List (String × PyValue)) :
    pyLookup (statsDefaults st) "hp" =
      some ((pyLookup st "hp").getD (.list [])) := by
  unfold statsDefaults
  rw [pyLookup_setdefault_other _ _ _ _ (by decide),
    pyLookup_setdefault_other _ _ _ _ (by decide),
    pyLookup_setdefault_other _ _ _ _ (by decide), pyLookup_setdefault_self]

/-- `def` after the stats defaults. -/
theorem statsDefaults_def (st : List (String × PyValue)) :
    pyLookup (statsDefaults st) "def" =
      some ((pyLookup st "def").getD (.list [])) := by
  unfold statsDefaults
  rw [pyLookup_setdefault_other _ _ _ _ (by decide),
    pyLookup_setdefault_other _ _ _ _ (by decide),
    pyLookup_setdefault_self, pyLookup_setdefault_other _ _ _ _ (by decide)]

/-- `res` after the stats defaults. -/
theorem statsDefaults_res (st : List (String × PyValue)) :
    pyLookup (statsDefaults st) "res" =
      some ((pyLookup st "res").getD (.list [])) := by
  unfold statsDefaults
  rw [pyLookup_setdefault_other _ _ _ _ (by decide), pyLookup_setdefault_self,
    pyLookup_setdefault_other _ _ _ _ (by decide),
    pyLookup_setdefault_other _ _ _ _ (by decide)]

/-- `str` after the stats defaults. -/
theorem statsDefaults_str (st : List (String × PyValue)) :
    pyLookup (statsDefaults st) "str" =
      some ((pyLookup st "str").getD (.list [])) := by
  unfold statsDefaults
  rw [pyLookup_setdefault_self, pyLookup_setdefault_other _ _ _ _ (by decide),
    pyLookup_setdefault_other _ _ _ _ (by decide),
    pyLookup_setdefault_other _ _ _ _ (by decide)]

/-- Every class entry surviving normalization has the shape the loader
guarantees. -/
theorem normalize_class_entry (src out : PyValue)
    (h : normalize_class src = .ok out) : normalized_entry src out := by
  cases src with
  | null => simp [normalize_class] at h
  | int n => simp [normalize_class] at h
  | str s => simp [normalize_class] at h
  | list xs => simp [normalize_class] at h
  | skill s => simp [normalize_class] at h
  | dict d =>
      simp only [normalize_class] at h
      cases hsu : pyLookup (classDefaults d) "stats_up" with
      | none => rw [hsu] at h; simp at h
      | some stats =>
          rw [hsu] at h
          cases stats with
          | null => simp at h
          | int n => simp at h
          | str s => simp at h
          | list xs => simp at h
          | skill s => simp at h
          | dict st =>
              dsimp only at h
              cases hsk : skillsOf (classWithStats d st) with
              | error e => rw [hsk] at h; simp at h
              | ok names =>
                  rw [hsk] at h
                  have hout : PyValue.dict (pyDictSet (classWithStats d st)
                      "skills" (.list (names.map get_skill_data))) = out := by
                    simpa using h
                  subst hout
                  have hskills : pyLookup (classWithStats d st) "skills" =
                      pyLookup d "skills" := by
                    unfold classWithStats
                    rw [pyLookup_dictSet_other _ _ _ _ (by decide),
                      classDefaults_other d "skills" (by decide) (by decide)]
                  refine ⟨?_, ?_, ?_, ?_, ?_, ?_, ?_⟩
                  · show (pyLookup (pyDictSet (classWithStats d st) "skills"
                      (.list (names.map get_skill_data))) "constitution").isSome
                    rw [pyLookup_dictSet_other _ _ _ _ (by decide)]
                    unfold classWithStats
                    rw [pyLookup_dictSet_other _ _ _ _ (by decide),
                      classDefaults_constitution]
                    rfl
                  · intro hnone
                    show pyLookup (pyDictSet (classWithStats d st) "skills"
                      (.list (names.map get_skill_data))) "constitution"
                      = some (.int 0)
                    rw [pyLookup_dictSet_other _ _ _ _ (by decide)]
                    unfold classWithStats
                    rw [pyLookup_dictSet_other _ _ _ _ (by decide),
                      classDefaults_constitution]
                    have hdn : pyLookup d "constitution" = none := hnone
                    rw [hdn]
                    rfl
                  · show (pyLookup (pyDictSet (classWithStats d st) "skills"
                      (.list (names.map get_skill_data))) "move").isSome
                    rw [pyLookup_dictSet_other _ _ _ _ (by decide)]
                    unfold classWithStats
                    rw [pyLookup_dictSet_other _ _ _ _ (by decide),
                      classDefaults_move]
                    rfl
                  · intro hnone
                    show pyLookup (pyDictSet (classWithStats d st) "skills"
                      (.list (names.map get_skill_data))) "move" = some (.int 0)
                    rw [pyLookup_dictSet_other _ _ _ _ (by decide)]
                    unfold classWithStats
                    rw [pyLookup_dictSet_other _ _ _ _ (by decide),
                      classDefaults_move]
                    have hdn : pyLookup d "move" = none := hnone
                    rw [hdn]
                    rfl
                  · refine ⟨names.map get_skill_data, ?_, ?_⟩
                    · show pyLookup (pyDictSet (classWithStats d st) "skills"
                        (.list (names.map get_skill_data))) "skills"
                        = some (.list (names.map get_skill_data))
                      rw [pyLookup_dictSet_self]
                    · intro y hy
                      rcases List.mem_map.mp hy with ⟨x0, _, rfl⟩
                      cases x0 <;> exact ⟨_, rfl⟩
                  · intro hnone
                    have hdn : pyLookup d "skills" = none := hnone
                    have hnames : names = [] := by
                      unfold skillsOf at hsk
                      rw [hskills, hdn] at hsk
                      simpa using hsk.symm
                    subst hnames
                    show pyLookup (pyDictSet (classWithStats d st) "skills"
                      (.list (List.map get_skill_data []))) "skills"
                      = some (.list [])
                    rw [pyLookup_dictSet_self]
                    rfl
                  · refine ⟨statsDefaults st, ?_, ?_, ?_, ?_, ?_, ?_⟩
                    · show pyLookup (pyDictSet (classWithStats d st) "skills"
                        (.list (names.map get_skill_data))) "stats_up"
                        = some (.dict (statsDefaults st))
                      rw [pyLookup_dictSet_other _ _ _ _ (by decide)]
                      unfold classWithStats
                      rw [pyLookup_dictSet_self]
                    · rw [statsDefaults_hp]; rfl
                    · rw [statsDefaults_def]; rfl
                    · rw [statsDefaults_res]; rfl
                    · rw [statsDefaults_str]; rfl
                    · intro st0 hst0
                      have hd0 : pyLookup d "stats_up" = some (.dict st0) := hst0
                      have hchain : pyLookup (classDefaults d) "stats_up" =
                          pyLookup d "stats_up" :=
                        classDefaults_other d "stats_up" (by decide) (by decide)
                      have hst : PyValue.dict st0 = PyValue.dict st := by
                        have := hsu
                        rw [hchain, hd0] at this
                        simpa using this
                      have hst' : st0 = st := by
                        injection hst
                      subst hst'
                      refine ⟨?_, ?_, ?_, ?_⟩
                      · intro hn
                        rw [statsDefaults_hp, hn]
                        rfl
                      · intro hn
                        rw [statsDefaults_def, hn]
                        rfl
                      · intro hn
                        rw [statsDefaults_res, hn]
                        rfl
                      · intro hn
                        rw [statsDefaults_str, hn]
                        rfl

/-- The entry loop of `load_classes` normalizes entries pointwise,
keeping names and order. -/
theorem normalizeEntries_forall (cs out : List (String × PyValue))
    (h : normalizeEntries cs = .ok out) :
    List.Forall₂ (fun p q : String × PyValue =>
      q.1 = p.1 ∧ normalized_entry p.2 q.2) cs out := by
  induction cs generalizing out with
  | nil =>
      have : out = [] := by simpa [normalizeEntries] using h.symm
      subst this
      exact .nil
  | cons kv rest ih =>
      obtain ⟨k, v⟩ := kv
      unfold normalizeEntries at h
      cases hn : normalize_class v with
      | error e => rw [hn] at h; simp at h
      | ok v2 =>
          rw [hn] at h
          cases hr : normalizeEntries rest with
          | error e => rw [hr] at h; simp at h
          | ok rest2 =>
              rw [hr] at h
              have : (k, v2) :: rest2 = out := by simpa using h
              subst this
              exact .cons ⟨rfl, normalize_class_entry v v2 hn⟩ (ih rest2 hr)

/-- C9: every class entry of a successfully loaded class mapping has the
keys `constitution`, `move` and `skills` (defaulted to `0`, `0` and the
empty list when absent from the source JSON, with skill names replaced by
built `Skill` objects), and its `stats_up` mapping has the keys `hp`,
`def`, `res` and `str` (defaulted to the empty list when absent); names
and entry order are preserved. -/
theorem c9_load_classes_shape (cs out : List (String × PyValue))
    (h : load_classes (.dict cs) = .ok (.dict out)) :
    List.Forall₂ (fun p q : String × PyValue =>
      q.1 = p.1 ∧ normalized_entry p.2 q.2) cs out := by
  simp only [load_classes] at h
  cases hn : normalizeEntries cs with
  | error e => rw [hn] at h; simp at h
  | ok cs2 =>
      rw [hn] at h
      have : cs2 = out := by simpa using h
      subst this
      exact normalizeEntries_forall cs cs2 hn

/-- Witness for C9 on the sample class file: one `warrior` entry with a
partial `stats_up` and one skill name. -/
theorem c9_witness :
    List.Forall₂ (fun p q : String × PyValue =>
      q.1 = p.1 ∧ normalized_entry p.2 q.2) sampleClasses
      [("warrior",
        .dict [("stats_up",
                 .dict [("hp", .list [.int 4]), ("def", .list []),
                        ("res", .list []), ("str", .list [])]),
               ("skills", .list [.skill "bash"]),
               ("constitution", .int 0),
               ("move", .int 0)])] :=
  c9_load_classes_shape sampleClasses
    [("warrior",
      .dict [("stats_up",
               .dict [("hp", .list [.int 4]), ("def", .list []),
                      ("res", .list []), ("str", .list [])]),
             ("skills", .list [.skill "bash"]),
             ("constitution", .int 0),
             ("move", .int 0)])]
    rfl

/-- Insertion keeps the same elements. -/
theorem insortBy_perm (le : α → α → Bool) (x : α) (l : List α) :
    List.Perm (insortBy le x l) (x :: l) := by
  induction l with
  | nil => exact List.Perm.refl _
  | cons y ys ih =>
      unfold insortBy
      by_cases h : le x y = true
      · rw [if_pos h]
      · rw [if_neg h]
        exact (ih.cons y).trans (List.Perm.swap x y ys)

/-- `sortBy` permutes its input. -/
theorem sortBy_perm (le : α → α → Bool) (l : List α) :
    List.Perm (sortBy le l) l := by
  induction l with
  | nil => exact List.Perm.refl _
  | cons x xs ih =>
      exact (insortBy_perm le x (sortBy le xs)).trans (ih.cons x)

/-- The ids of the entries a collection loop emits form a sublist of the
parsed ids of its tile nodes. -/
theorem collectionLoop_ids_sublist (env : Env) (n p : String)
    (tw th : Int) (tp : Int → Option Props) (an : Int → Bool)
    (nodes : List XmlElement) (raw : List TileEntry)
    (h : collectionLoop env n p tw th tp an nodes = .ok raw) :
    (raw.map (fun t => t.local_id)).Sublist (nodes.filterMap parsedId) := by
  induction nodes generalizing raw with
  | nil =>
      have : raw = [] := by simpa [collectionLoop] using h.symm
      subst this
      simp
  | cons t rest ih =>
      unfold collectionLoop at h
      cases hid : tileNodeId t with
      | error e => rw [hid] at h; simp at h
      | ok tid =>
          rw [hid] at h
          dsimp only at h
          have hpid : parsedId t = some tid := by
            unfold parsedId
            rw [hid]
            rfl
          rw [List.filterMap_cons, hpid]
          cases himg : findChild t "image" with
          | none =>
              rw [himg] at h
              exact (ih raw h).cons tid
          | some imgNode =>
              rw [himg] at h
              dsimp only at h
              by_cases hneg : tid < 0
              · rw [if_pos hneg] at h
                exact (ih raw h).cons tid
              · rw [if_neg hneg] at h
                cases hsrc : attr imgNode "source" with
                | none =>
                    rw [hsrc] at h
                    exact (ih raw h).cons tid
                | some source =>
                    simp only [hsrc] at h
                    by_cases hes : source = ""
                    · rw [if_pos hes] at h
                      exact (ih raw h).cons tid
                    · rw [if_neg hes] at h
                      cases hfp : env.files (joinResolve p source) with
                      | false => rw [hfp] at h; simp at h
                      | true =>
                          rw [hfp] at h
                          try dsimp only at h
                          cases hi : env.images (joinResolve p source) with
                          | none => rw [hi] at h; simp at h
                          | some wh =>
                              rw [hi] at h
                              try dsimp only at h
                              cases hrec : collectionLoop env n p tw th tp an
                                  rest with
                              | error e => rw [hrec] at h; simp at h
                              | ok tiles =>
                                  rw [hrec] at h
                                  have : ({ tileset_name := n
                                            local_id := tid
                                            surface := .scaled
                                              (.base (joinResolve p source)
                                                wh.1 wh.2) tw th
                                            properties :=
                                              (tp tid).getD emptyProps
                                            is_animated := an tid } :
                                      TileEntry) :: tiles = raw := by
                                    simpa using h
                                  subst this
                                  rw [List.map_cons]
                                  exact (ih tiles hrec).cons₂ tid

/-- The ids of sliced sheet tiles are `0, 1, …, tile_count - 1`. -/
theorem slice_tiles_ids (info : TilesetInfo) (img : Surface)
    (tp : Int → Option Props) (an : Int → Bool) :
    ((slice_tiles info img tp an).map (fun t => t.local_id)) =
      (List.range info.tile_count.toNat).map (fun n => Int.ofNat n) := by
  unfold slice_tiles
  rw [List.map_map]
  rfl

/-- Under the header hypotheses, `load_tileset` reduces to the branch on
the root's `<image>` child. -/
theorem load_tileset_eq_branch (env : Env) (p : String) (root : XmlElement)
    (tw th tc cols mg sp : Int)
    (tpan : (Int → Option Props) × (Int → Bool))
    (hf : env.files p = true) (hp : env.parse p = some root)
    (h1 : getIntAttr root "tilewidth" = .ok tw)
    (h2 : getIntAttr root "tileheight" = .ok th)
    (h3 : getIntAttrD root "tilecount" 0 = .ok tc)
    (h4 : getIntAttrD root "columns" 1 = .ok cols)
    (h5 : getIntAttrD root "margin" 0 = .ok mg)
    (h6 : getIntAttrD root "spacing" 0 = .ok sp)
    (h7 : collect_tile_props root = .ok tpan) :
    load_tileset env p =
      match findChild root "image" with
      | some imageNode =>
          loadSheetBranch env p imageNode
            ((attr root "name").getD (pathStem p)) tw th tc cols mg sp
            tpan.1 tpan.2
      | none =>
          loadCollectionBranch env root p
            ((attr root "name").getD (pathStem p)) tw th cols
            tpan.1 tpan.2 := by
  unfold load_tileset load_tileset_xml
  simp only [hf, hp, h1, h2, h3, h4, h5, h6, h7, if_true]

/-- C8 (amended: sheet-image tilesets unconditionally — their tile list
comes from `range(tile_count)` — while collection tilesets require the
TSX's tile nodes to carry pairwise-distinct ids): in every `TilesetData`
returned by `load_tileset`, the tiles list contains at most one
`TileEntry` per `local_id`. -/
theorem c8_unique_local_ids (env : Env) (p : String) (root : XmlElement)
    (d : TilesetData)
    (hp : env.parse p = some root)
    (hnd : findChild root "image" = none →
      ((findAll root "tile").filterMap parsedId).Nodup)
    (hok : load_tileset env p = .ok d) :
    (d.tiles.map (fun t => t.local_id)).Nodup := by
  cases hf : env.files p with
  | false =>
      unfold load_tileset load_tileset_xml at hok
      rw [hf] at hok
      simp at hok
  | true =>
      cases h1 : getIntAttr root "tilewidth" with
      | error e => simp [load_tileset, load_tileset_xml, hf, hp, h1] at hok
      | ok tw =>
      cases h2 : getIntAttr root "tileheight" with
      | error e => simp [load_tileset, load_tileset_xml, hf, hp, h1, h2] at hok
      | ok th =>
      cases h3 : getIntAttrD root "tilecount" 0 with
      | error e =>
          simp [load_tileset, load_tileset_xml, hf, hp, h1, h2, h3] at hok
      | ok tc =>
      cases h4 : getIntAttrD root "columns" 1 with
      | error e =>
          simp [load_tileset, load_tileset_xml, hf, hp, h1, h2, h3, h4] at hok
      | ok cols =>
      cases h5 : getIntAttrD root "margin" 0 with
      | error e =>
          simp [load_tileset, load_tileset_xml, hf, hp, h1, h2, h3, h4,
            h5] at hok
      | ok mg =>
      cases h6 : getIntAttrD root "spacing" 0 with
      | error e =>
          simp [load_tileset, load_tileset_xml, hf, hp, h1, h2, h3, h4, h5,
            h6] at hok
      | ok sp =>
      cases h7 : collect_tile_props root with
      | error e =>
          simp [load_tileset, load_tileset_xml, hf, hp, h1, h2, h3, h4, h5,
            h6, h7] at hok
      | ok tpan =>
      rw [load_tileset_eq_branch env p root tw th tc cols mg sp tpan hf hp
        h1 h2 h3 h4 h5 h6 h7] at hok
      cases himg : findChild root "image" with
      | some imgNode =>
          rw [himg] at hok
          try dsimp only at hok
          unfold loadSheetBranch at hok
          cases hsrc : attr imgNode "source" with
          | none => rw [hsrc] at hok; simp at hok
          | some source =>
              simp only [hsrc] at hok
              by_cases hes : source = ""
              · rw [if_pos hes] at hok; simp at hok
              · rw [if_neg hes] at hok
                cases hfp : env.files (joinResolve p source) with
                | false => rw [hfp] at hok; simp at hok
                | true =>
                    rw [hfp] at hok
                    try dsimp only at hok
                    cases hi : env.images (joinResolve p source) with
                    | none => rw [hi] at hok; simp at hok
                    | some wh =>
                        rw [hi] at hok
                        try dsimp only at hok
                        by_cases htc : tc = 0
                        · rw [if_pos htc] at hok
                          cases hdc : deriveTileCount cols tw th wh.1 wh.2 with
                          | error e => rw [hdc] at hok; simp at hok
                          | ok tc2 =>
                              rw [hdc] at hok
                              try dsimp only at hok
                              injection hok with hok2
                              subst hok2
                              rw [slice_tiles_ids]
                              exact List.Nodup.map
                                (fun a b hab => Int.ofNat.inj hab)
                                (List.nodup_range _)
                        · rw [if_neg htc] at hok
                          try dsimp only at hok
                          injection hok with hok2
                          subst hok2
                          rw [slice_tiles_ids]
                          exact List.Nodup.map
                            (fun a b hab => Int.ofNat.inj hab)
                            (List.nodup_range _)
      | none =>
          rw [himg] at hok
          try dsimp only at hok
          unfold loadCollectionBranch at hok
          cases hct : load_collection_tiles env root p tw th tpan.1 tpan.2 with
          | error e => rw [hct] at hok; simp at hok
          | ok tiles =>
              rw [hct] at hok
              try dsimp only at hok
              by_cases hemp : tiles.isEmpty = true
              · rw [if_pos hemp] at hok; simp at hok
              · rw [if_neg hemp] at hok
                injection hok with hok2
                subst hok2
                unfold load_collection_tiles at hct
                cases hcl : collectionLoop env
                    ((attr root "name").getD (pathStem p)) p tw th
                    tpan.1 tpan.2 (findAll root "tile") with
                | error e => rw [hcl] at hct; simp at hct
                | ok raw =>
                    rw [hcl] at hct
                    have hts : sortBy (fun a b => a.local_id ≤ b.local_id) raw
                        = tiles := by simpa using hct
                    subst hts
                    have hperm := (sortBy_perm
                      (fun (a b : TileEntry) => a.local_id ≤ b.local_id)
                      raw).map (fun t => t.local_id)
                    have hsub := collectionLoop_ids_sublist env
                      ((attr root "name").getD (pathStem p)) p tw th
                      tpan.1 tpan.2 (findAll root "tile") raw hcl
                    exact hperm.nodup_iff.mpr
                      (List.Nodup.sublist hsub (hnd himg))

/-- Counterexample for C8 as stated: a collection TSX whose two `<tile>`
nodes both carry id 3 loads successfully into a tiles list with two
entries of `local_id = 3`. -/
theorem c8_counterexample :
    loadedLocalIds (load_tileset dupIdEnv "d/t.tsx") = some [3, 3] ∧
      dupFree [3, 3] = false := by
  exact ⟨rfl, rfl⟩

/-- Witness for C8 (amended) on a concrete sheet tileset whose TSX
carries two `<tile>` property nodes with the same id 0: the load succeeds
and the sliced tile list still has pairwise-distinct local ids, with no
distinctness hypothesis needed. -/
theorem c8_witness :
    loadedLocalIds (load_tileset dupTileSheetEnv "d/t.tsx")
      = some [0, 1, 2, 3] ∧
    (([0, 1, 2, 3] : List Int)).Nodup := by
  refine ⟨rfl, ?_⟩
  exact c8_unique_local_ids dupTileSheetEnv "d/t.tsx" dupTileSheetRoot _
    rfl (fun hh => nomatch hh) rfl

/-- A successful props/animations pass means every tile node's id
attribute parses. -/
theorem collectTileLoop_ids (nodes : List XmlElement)
    (tp : Int → Option Props) (an : Int → Bool)
    (res : (Int → Option Props) × (Int → Bool))
    (h : collectTileLoop nodes tp an = .ok res) :
    ∀ t ∈ nodes, ∃ i, tileNodeId t = .ok i := by
  induction nodes generalizing tp an with
  | nil =>
      intro t ht
      simp at ht
  | cons t rest ih =>
      intro x hx
      unfold collectTileLoop at h
      cases hid : tileNodeId t with
      | error e => rw [hid] at h; simp at h
      | ok tid =>
          rw [hid] at h
          dsimp only at h
          rcases List.mem_cons.mp hx with rfl | hxr
          · exact ⟨tid, hid⟩
          · by_cases hneg : tid < 0
            · rw [if_pos hneg] at h
              exact ih _ _ h x hxr
            · rw [if_neg hneg] at h
              exact ih _ _ h x hxr

/-- When every tile node's id parses, the collection loop either succeeds
or fails with the dedicated `TilesetLoadError`. -/
theorem collectionLoop_ok_or_tle (env : Env) (n p : String) (tw th : Int)
    (tp : Int → Option Props) (an : Int → Bool) (nodes : List XmlElement)
    (hids : ∀ t ∈ nodes, ∃ i, tileNodeId t = .ok i) :
    okOrLoadError (collectionLoop env n p tw th tp an nodes) = true := by
  induction nodes with
  | nil => rfl
  | cons t rest ih =>
      have ihr := ih (fun x hx => hids x (List.mem_cons_of_mem t hx))
      unfold collectionLoop
      rcases hids t (List.mem_cons_self t rest) with ⟨i, hi⟩
      rw [hi]
      dsimp only
      cases himg : findChild t "image" with
      | none => exact ihr
      | some imgNode =>
          dsimp only
          by_cases hneg : i < 0
          · rw [if_pos hneg]
            exact ihr
          · rw [if_neg hneg]
            cases hsrc : attr imgNode "source" with
            | none => exact ihr
            | some source =>
                dsimp only
                by_cases hes : source = ""
                · rw [if_pos hes]
                  exact ihr
                · rw [if_neg hes]
                  cases hfp : env.files (joinResolve p source) with
                  | false => rfl
                  | true =>
                      cases hi2 : env.images (joinResolve p source) with
                      | none => rfl
                      | some wh =>
                          cases hrec : collectionLoop env n p tw th tp an
                              rest with
                          | error e =>
                              rw [hrec] at ihr
                              exact ihr
                          | ok tiles => rfl

/-- The derived tile count succeeds when the divisions are safe. -/
theorem deriveTileCount_ok (columns tile_width tile_height w h : Int)
    (hc : 0 < columns ∨ ¬ tile_width = 0) (hh : ¬ tile_height = 0) :
    ∃ n, deriveTileCount columns tile_width tile_height w h = .ok n := by
  unfold deriveTileCount
  by_cases h0 : 0 < columns
  · rw [if_pos h0]
    dsimp only
    rw [if_neg hh]
    exact ⟨_, rfl⟩
  · rw [if_neg h0]
    have hw : ¬ tile_width = 0 := by
      rcases hc with hc | hc
      · exact absurd hc h0
      · exact hc
    rw [if_neg hw]
    dsimp only
    rw [if_neg hh]
    exact ⟨_, rfl⟩

/-- C7 (amended: a missing TSX file raises the uncaught file-open error
`FileNotFoundError`, not `TilesetLoadError`; the other listed failure
modes do raise `TilesetLoadError`): given a root whose numeric attributes
and tile ids parse, (i) a missing TSX file yields `FileNotFoundError`;
(ii) malformed TSX XML yields `TilesetLoadError` with a descriptive
message; (iii) a missing or unloadable sheet image yields
`TilesetLoadError` with a descriptive message; and (iv) whenever the
derived-tile-count divisions are safe, no exception other than
`TilesetLoadError` escapes `load_tileset` (collection-tile image failures
included). -/
theorem c7_load_failures (env : Env) (p : String) (root : XmlElement)
    (tw th tc cols mg sp : Int)
    (tpan : (Int → Option Props) × (Int → Bool))
    (h1 : getIntAttr root "tilewidth" = .ok tw)
    (h2 : getIntAttr root "tileheight" = .ok th)
    (h3 : getIntAttrD root "tilecount" 0 = .ok tc)
    (h4 : getIntAttrD root "columns" 1 = .ok cols)
    (h5 : getIntAttrD root "margin" 0 = .ok mg)
    (h6 : getIntAttrD root "spacing" 0 = .ok sp)
    (h7 : collect_tile_props root = .ok tpan) :
    (env.files p = false →
      load_tileset env p = .error (.fileNotFoundError p)) ∧
    (env.files p = true → env.parse p = none →
      load_tileset env p =
        .error (.tilesetLoadError ("Invalid TSX XML: " ++ p))) ∧
    (env.files p = true → env.parse p = some root →
      (∀ imageNode source, findChild root "image" = some imageNode →
        attr imageNode "source" = some source → ¬ source = "" →
        (env.files (joinResolve p source) = false →
          load_tileset env p = .error (.tilesetLoadError
            ("Tileset image not found: " ++ joinResolve p source))) ∧
        (env.files (joinResolve p source) = true →
          env.images (joinResolve p source) = none →
          load_tileset env p = .error (.tilesetLoadError
            ("Failed to load tileset image: " ++ joinResolve p source)))) ∧
      ((¬ tc = 0 ∨ ((0 < cols ∨ ¬ tw = 0) ∧ ¬ th = 0)) →
        okOrLoadError (load_tileset env p) = true)) := by
  refine ⟨fun hf0 => ?_, fun hf hpn => ?_, fun hf hp => ⟨?_, ?_⟩⟩
  · unfold load_tileset load_tileset_xml
    rw [hf0]
    rfl
  · unfold load_tileset load_tileset_xml
    rw [hf, hpn]
    rfl
  · intro imageNode source himg hsrc hes
    rw [load_tileset_eq_branch env p root tw th tc cols mg sp tpan hf hp
      h1 h2 h3 h4 h5 h6 h7, himg]
    try dsimp only
    unfold loadSheetBranch
    rw [hsrc]
    constructor
    · intro hfp
      dsimp only
      rw [if_neg hes, hfp]
      rfl
    · intro hfp hin
      dsimp only
      rw [if_neg hes, hfp, hin]
      rfl
  · intro hsafe
    rw [load_tileset_eq_branch env p root tw th tc cols mg sp tpan hf hp
      h1 h2 h3 h4 h5 h6 h7]
    cases himg : findChild root "image" with
    | some imageNode =>
        try dsimp only
        unfold loadSheetBranch
        cases hsrc : attr imageNode "source" with
        | none => rfl
        | some source =>
            dsimp only
            by_cases hes : source = ""
            · rw [if_pos hes]
              rfl
            · rw [if_neg hes]
              cases hfp : env.files (joinResolve p source) with
              | false => rfl
              | true =>
                  cases hin : env.images (joinResolve p source) with
                  | none => rfl
                  | some wh =>
                      try dsimp only
                      by_cases htc : tc = 0
                      · rw [if_pos htc]
                        have hdc : ∃ n, deriveTileCount cols tw th wh.1 wh.2
                            = .ok n := by
                          apply deriveTileCount_ok
                          · rcases hsafe with hsafe | hsafe
                            · exact absurd htc hsafe
                            · exact hsafe.1
                          · rcases hsafe with hsafe | hsafe
                            · exact absurd htc hsafe
                            · exact hsafe.2
                        rcases hdc with ⟨n, hdc⟩
                        rw [hdc]
                        rfl
                      · rw [if_neg htc]
                        rfl
    | none =>
        try dsimp only
        unfold loadCollectionBranch load_collection_tiles
        have hids := collectTileLoop_ids (findAll root "tile")
          (fun _ => none) (fun _ => false) tpan h7
        have hloop := collectionLoop_ok_or_tle env
          ((attr root "name").getD (pathStem p)) p tw th tpan.1 tpan.2
          (findAll root "tile") hids
        cases hcl : collectionLoop env
            ((attr root "name").getD (pathStem p)) p tw th tpan.1 tpan.2
            (findAll root "tile") with
        | error e =>
            rw [hcl] at hloop
            try dsimp only
            cases e <;> simp_all [okOrLoadError]
        | ok raw =>
            try dsimp only
            by_cases hemp : (sortBy
                (fun (a b : TileEntry) => a.local_id ≤ b.local_id)
                raw).isEmpty = true
            · rw [if_pos hemp]
              rfl
            · rw [if_neg hemp]
              rfl

/-- Counterexample to the original C7: a TSX path that does not exist
makes `load_tileset` raise `FileNotFoundError` (the uncaught error from
`open`), not `TilesetLoadError`. -/
theorem c7_counterexample :
    load_tileset emptyEnv "a.tsx" = .error (.fileNotFoundError "a.tsx") ∧
    okOrLoadError (load_tileset emptyEnv "a.tsx") = false :=
  ⟨rfl, rfl⟩

/-- Witness for C7: on the concrete environment where the sheet image is
missing, `load_tileset` raises `TilesetLoadError` with the descriptive
message. -/
theorem c7_witness :
    load_tileset sheetNoImageEnv "d/t.tsx" =
      .error (.tilesetLoadError
        ("Tileset image not found: " ++ joinResolve "d/t.tsx" "s.png")) :=
  (((c7_load_failures sheetNoImageEnv "d/t.tsx" sheetRoot 8 8 4 2 0 0
      ((fun _ => none), (fun _ => false))
      rfl rfl rfl rfl rfl rfl rfl).2.2 rfl rfl).1
    (.mk "image" [("source", "s.png")] []) "s.png" rfl rfl
    (by decide)).1 rfl
